import Mathlib

/-!
Formal model of the EvilKitten chat-streaming core.

This file shallowly embeds the two source components the claims are about:

* `DashScopeService.sendStreamMessage` (src/unnamed/part_004): the SSE
  streaming client — frame routing, the one-way "answering" latch, the
  60-second timeout, HTTP/网络 error mapping and the terminal callbacks.
* the Pinia chat store (src/unnamed/part_001): conversation/message
  state, the mutation operations, and the `sendMessage` orchestration.

Modelling conventions:
* JavaScript exceptions are modelled as `JsError` records (name, message),
  mirroring `error instanceof Error` objects; every throw site in the
  source throws an `Error`.
* The body of an SSE response is modelled as a list of reads, each read
  carrying the complete lines it contributes after the buffer split (the
  buffering itself only reassembles lines and is not claim-relevant),
  plus how the body ends (end-of-stream, a stall that never settles, or a
  mid-stream read failure).
* `JSON.parse` of an arbitrary payload cannot be embedded literally, so a
  data-frame payload is modelled by its parse outcome (`Payload`): the
  `[DONE]` token, a payload whose processing throws inside the local
  try/catch (malformed JSON), a usage object, a frame without choices, or
  a delta with optional `reasoning_content` / `content` string fields
  (where `none` covers both `undefined` and `null`, which the source
  treats identically).
* `localStorage` is modelled as a `Storage` record written by
  `saveConversations`; `saveCount` counts invocations of the persistence
  collaborator.
* `Date.now()` / `generateId()` values are passed in explicitly as `now`
  and fresh-id arguments.
-/

namespace EvilKitten

/-- Model of a JavaScript `Error` value: its `name` and `message`. -/
structure JsError where
  name : String
  message : String
deriving Repr, DecidableEq

/-- Callback invocations of `sendStreamMessage`, in invocation order:
`onReasoningChunk`, `onChunk`, `onComplete`, `onError`. -/
inductive CallbackEvent where
  | reasoningChunk (chunk : String)
  | contentChunk (chunk : String)
  | complete
  | error (e : JsError)
deriving Repr, DecidableEq

/-- The `choices[0].delta` object of a parsed SSE frame. `none` models a
field that is `undefined` or `null` (the source checks both). -/
structure Delta where
  reasoning_content : Option String
  content : Option String
deriving Repr, DecidableEq

/-- Parse outcome of the payload of a `data: ` frame (see module comment):
`done` is the literal `[DONE]`, `malformed` a payload whose processing
throws inside the local try/catch, `usage` a frame with a `usage` field,
`noChoices` a frame whose `choices` list is missing or empty. -/
inductive Payload where
  | done
  | malformed
  | usage
  | noChoices
  | delta (d : Delta)
deriving Repr, DecidableEq

/-- One line of the SSE stream after the buffer split: `empty` is a blank
or comment line (skipped), `nonData` a line without the `data: ` prefix
(ignored by the loop), `data p` a data frame with payload `p`. -/
inductive Line where
  | empty
  | nonData
  | data (p : Payload)
deriving Repr, DecidableEq

/-- Routing result for a run of lines: events emitted, number of parse
failures logged by `console.error`, and the `isAnswering` flag value. -/
structure RouteResult where
  events : List CallbackEvent
  parseFailures : Nat
  answering : Bool
deriving Repr, DecidableEq

/-- Processing of one parsed delta (steps 11–12 of the source loop):
reasoning content is dispatched only while `isAnswering` is false; a
non-empty content field flips `isAnswering` to true (irreversibly) and is
dispatched via `onChunk`. Empty-string content is falsy in JS and is
skipped. -/
def processDelta (answering : Bool) (d : Delta) : List CallbackEvent × Bool :=
  let revs : List CallbackEvent :=
    match d.reasoning_content with
    | some r => if !answering then [CallbackEvent.reasoningChunk r] else []
    | none => []
  match d.content with
  | some c => if c != "" then (revs ++ [CallbackEvent.contentChunk c], true) else (revs, answering)
  | none => (revs, answering)

/-- Processing of one SSE line (steps 8–10 of the source loop): blank and
comment lines and non-`data: ` lines yield nothing; `[DONE]`, usage frames
and frames without choices are skipped; a payload that throws inside the
local try/catch is logged (one parse failure) and the loop continues; a
delta frame is routed by `processDelta`. -/
def processLineOne (answering : Bool) : Line → RouteResult
  | Line.empty => ⟨[], 0, answering⟩
  | Line.nonData => ⟨[], 0, answering⟩
  | Line.data Payload.done => ⟨[], 0, answering⟩
  | Line.data Payload.malformed => ⟨[], 1, answering⟩
  | Line.data Payload.usage => ⟨[], 0, answering⟩
  | Line.data Payload.noChoices => ⟨[], 0, answering⟩
  | Line.data (Payload.delta d) =>
    let r := processDelta answering d
    ⟨r.1, 0, r.2⟩

/-- Sequential processing of a list of SSE lines, threading the
`isAnswering` flag. -/
def processLines (answering : Bool) : List Line → RouteResult
  | [] => ⟨[], 0, answering⟩
  | l :: ls =>
    let r1 := processLineOne answering l
    let r2 := processLines r1.answering ls
    ⟨r1.events ++ r2.events, r1.parseFailures + r2.parseFailures, r2.answering⟩

/-- One completed `reader.read()`: its wall-clock duration in
milliseconds and the complete lines it contributes. -/
structure ReadChunk where
  duration : Nat
  lines : List Line
deriving Repr, DecidableEq

/-- How the response body ends: normal end-of-stream (`done`), a read
that never settles (`stall`), or a read that rejects with an error. -/
inductive BodyEnd where
  | eof
  | stall
  | failMid (e : JsError)
deriving Repr, DecidableEq

/-- Outcome of the `fetch` call: a rejection, or a response with its `ok`
flag, numeric status, error body text, body presence, reads and ending. -/
inductive FetchResult where
  | reject (e : JsError)
  | response (ok : Bool) (status : Nat) (errorText : String) (hasBody : Bool)
      (reads : List ReadChunk) (endKind : BodyEnd)
deriving Repr, DecidableEq

/-- Result of one `sendStreamMessage` invocation: the callback
invocations in order, and whether the call ever returns (`hangs` when a
body read never settles — no further callback can fire). -/
inductive RunResult where
  | finished (evs : List CallbackEvent)
  | hangs (evs : List CallbackEvent)
deriving Repr, DecidableEq

/-- The callback trace of a run result. -/
def eventsOf : RunResult → List CallbackEvent
  | RunResult.finished evs => evs
  | RunResult.hangs evs => evs

/-- The catch block of `sendStreamMessage`: an `AbortError` (the abort
raised by the timeout) is reported as `new Error('请求超时')`, any other
error object is passed to `onError` unchanged. -/
def mapCaughtError (e : JsError) : JsError :=
  if e.name == "AbortError" then ⟨"Error", "请求超时"⟩ else e

/-- The read loop of `sendStreamMessage` (step 5 of the source): each
read's lines are routed with the threaded `isAnswering` flag. -/
def runReads (answering : Bool) : List ReadChunk → RouteResult
  | [] => ⟨[], 0, answering⟩
  | rc :: rest =>
    let r1 := processLines answering rc.lines
    let r2 := runReads r1.answering rest
    ⟨r1.events ++ r2.events, r1.parseFailures + r2.parseFailures, r2.answering⟩

/-- Body of `sendStreamMessage` after the fetch has settled (the timeout
timer is already cleared at this point — source line 124): a fetch
rejection or a thrown HTTP/empty-body error reaches the catch block and
fires `onError`; otherwise the reads are routed and the stream ends with
`onComplete` on end-of-stream, hangs forever on a stalled read, or fires
`onError` when a read rejects. -/
def serviceRun (fr : FetchResult) : RunResult :=
  match fr with
  | FetchResult.reject e => RunResult.finished [CallbackEvent.error (mapCaughtError e)]
  | FetchResult.response ok status errorText hasBody reads endKind =>
    if !ok then
      RunResult.finished
        [CallbackEvent.error ⟨"Error", "HTTP " ++ toString status ++ ": " ++ errorText⟩]
    else if !hasBody then
      RunResult.finished [CallbackEvent.error ⟨"Error", "响应体为空"⟩]
    else
      let r := runReads false reads
      match endKind with
      | BodyEnd.eof => RunResult.finished (r.events ++ [CallbackEvent.complete])
      | BodyEnd.stall => RunResult.hangs r.events
      | BodyEnd.failMid e =>
        RunResult.finished (r.events ++ [CallbackEvent.error (mapCaughtError e)])

/-- Whole `sendStreamMessage` invocation with wall-clock timing:
`headersTime` is how long the `fetch` takes to settle. The 60-second
timer armed at request start aborts the fetch when it is still pending
after 60000 ms (the rejection is an `AbortError`, reported as the
timeout error); as soon as the fetch settles the timer is cleared
(source line 124), so the body-streaming phase runs without any timeout
regardless of read durations. -/
def sendStreamTimed (headersTime : Nat) (fr : FetchResult) : RunResult :=
  if 60000 < headersTime then
    RunResult.finished [CallbackEvent.error ⟨"Error", "请求超时"⟩]
  else serviceRun fr

/-- Total wall-clock duration of the transfer: time to headers plus the
durations of all body reads. -/
def transferTime (headersTime : Nat) : FetchResult → Nat
  | FetchResult.reject _ => headersTime
  | FetchResult.response _ _ _ _ reads _ =>
    headersTime + (reads.map ReadChunk.duration).sum

/-- Terminal callbacks: `onComplete` and `onError`. -/
def isTerminal : CallbackEvent → Bool
  | CallbackEvent.complete => true
  | CallbackEvent.error _ => true
  | _ => false

/-- The terminal callbacks of a run, in order. -/
def terminalsOf (r : RunResult) : List CallbackEvent :=
  (eventsOf r).filter isTerminal

/-- Whether an input describes a normal end of stream: the fetch settles
within the timeout window, with an ok response carrying a body whose
reads end in end-of-stream. -/
def normalEnd (headersTime : Nat) (fr : FetchResult) : Bool :=
  headersTime ≤ 60000 &&
    match fr with
    | FetchResult.response ok _ _ hasBody _ BodyEnd.eof => ok && hasBody
    | _ => false

/-- Whether an input describes a stalled body read (the run never
returns): ok response with body whose reads end in a stall. -/
def hangPath (headersTime : Nat) (fr : FetchResult) : Bool :=
  headersTime ≤ 60000 &&
    match fr with
    | FetchResult.response ok _ _ hasBody _ BodyEnd.stall => ok && hasBody
    | _ => false

/-- One-way phase latch over a callback trace: given that `answered`
content has (or has not) already been routed, checks that no
reasoning-chunk ever follows a content-chunk. -/
def phaseLatch (answered : Bool) : List CallbackEvent → Bool
  | [] => true
  | CallbackEvent.reasoningChunk _ :: rest => !answered && phaseLatch answered rest
  | CallbackEvent.contentChunk _ :: rest => phaseLatch true rest
  | _ :: rest => phaseLatch answered rest

/-! ### Chat store data model (src/unnamed/part_001 and src/src/types/index.ts) -/

/-- Message roles (`MessageRole` in the source types). -/
inductive Role where
  | user
  | assistant
deriving Repr, DecidableEq

/-- The `Message` interface: `isStreaming` and `reasoningContent` are
optional fields. -/
structure Message where
  id : String
  role : Role
  content : String
  timestamp : Nat
  isStreaming : Option Bool
  reasoningContent : Option String
deriving Repr, DecidableEq

/-- The `Conversation` interface. -/
structure Conversation where
  id : String
  title : String
  messages : List Message
  createdAt : Nat
  updatedAt : Nat
deriving Repr, DecidableEq

/-- The value held by the `conversations` key of the persistence store:
absent (`getItem` returns null), a string that fails to parse, or a
parsed conversation array. -/
inductive StoredConvs where
  | absent
  | malformed
  | ok (cs : List Conversation)
deriving Repr, DecidableEq

/-- The persistence collaborator (`localStorage`): the two fixed keys
written by `saveConversations`. `activeId = some ""` models the empty
string sentinel for "no active conversation". -/
structure Storage where
  conversations : StoredConvs
  activeId : Option String
deriving Repr, DecidableEq

/-- The chat store state: conversation list, active conversation id,
session flags, the persistence store contents, and a counter of
persistence invocations (`saveConversations` calls). -/
structure ChatState where
  conversations : List Conversation
  activeConversationId : Option String
  isLoading : Bool
  isStreaming : Bool
  storage : Storage
  saveCount : Nat
deriving Repr, DecidableEq

/-- In-place mutation of the first element satisfying `p` (JavaScript
`find` followed by mutation of the found object): every other element is
unchanged and the order is preserved. -/
def modifyFirst (p : α → Bool) (f : α → α) : List α → List α
  | [] => []
  | x :: xs => if p x then f x :: xs else x :: modifyFirst p f xs

/-- JavaScript `Array.prototype.findIndex` (with `-1` mapped to `none`). -/
def findIndex (p : α → Bool) : List α → Option Nat
  | [] => none
  | x :: xs => if p x then some 0 else (findIndex p xs).map (· + 1)

/-- The derived `activeConversation` computed property:
`conversations.find(c => c.id === activeConversationId) || null`. -/
def activeConversation (s : ChatState) : Option Conversation :=
  match s.activeConversationId with
  | none => none
  | some aid => s.conversations.find? (fun c => c.id == aid)

/-- `saveConversations`: writes the conversation array and the active id
(empty-string sentinel for null) to the persistence store. -/
def saveConversations (s : ChatState) : ChatState :=
  { s with
    storage := ⟨StoredConvs.ok s.conversations, some (s.activeConversationId.getD "")⟩,
    saveCount := s.saveCount + 1 }

/-- `createConversation`: a new empty conversation (title `新对话`) is
inserted at the front, made active, and the state is persisted. The
fresh id and the current time are passed in explicitly. -/
def createConversation (s : ChatState) (freshId : String) (now : Nat) :
    ChatState × Conversation :=
  let nc : Conversation := ⟨freshId, "新对话", [], now, now⟩
  (saveConversations
    { s with conversations := nc :: s.conversations, activeConversationId := some freshId },
   nc)

/-- `deleteConversation`: removes the first conversation whose id
matches (`findIndex` + `splice`); when the removed one was active, the
active pointer moves to the new first conversation
(`conversations[0]?.id || null` — an empty-string id is falsy and yields
null) or, when the set became empty, a fresh conversation is created;
the state is persisted. A missing id is a no-op. -/
def deleteConversation (s : ChatState) (id : String) (freshId : String) (now : Nat) :
    ChatState :=
  match findIndex (fun c => c.id == id) s.conversations with
  | none => s
  | some idx =>
    let s1 := { s with conversations := s.conversations.eraseIdx idx }
    let s2 :=
      if s.activeConversationId == some id then
        if 0 < s1.conversations.length then
          { s1 with
            activeConversationId :=
              match s1.conversations.head? with
              | some c => if c.id == "" then none else some c.id
              | none => none }
        else (createConversation s1 freshId now).1
      else s1
    saveConversations s2

/-- `switchConversation`: reassigns the active pointer only. -/
def switchConversation (s : ChatState) (id : String) : ChatState :=
  { s with activeConversationId := some id }

/-- The argument of `addMessage` (the `Omit` of `Message` without id and
timestamp). -/
structure NewMessage where
  role : Role
  content : String
  isStreaming : Option Bool
  reasoningContent : Option String
deriving Repr, DecidableEq

/-- `addMessage`: a no-op returning nothing when the conversation id is
unknown; otherwise appends the completed message, bumps `updatedAt`,
derives the title from the first user message (first 20 characters, with
`...` appended when the content exceeds 20 characters), and persists. -/
def addMessage (s : ChatState) (conversationId : String) (msg : NewMessage)
    (msgId : String) (now : Nat) : ChatState × Option Message :=
  match s.conversations.find? (fun c => c.id == conversationId) with
  | none => (s, none)
  | some _ =>
    let newMessage : Message :=
      ⟨msgId, msg.role, msg.content, now, msg.isStreaming, msg.reasoningContent⟩
    let s1 :=
      { s with
        conversations :=
          modifyFirst (fun c => c.id == conversationId)
            (fun c =>
              let pushed := c.messages ++ [newMessage]
              { c with
                messages := pushed,
                updatedAt := now,
                title :=
                  if pushed.length == 1 && msg.role == Role.user then
                    msg.content.take 20 ++ (if msg.content.length > 20 then "..." else "")
                  else c.title })
            s.conversations }
    (saveConversations s1, some newMessage)

/-- `updateMessage`: replaces the content of the addressed message (a
no-op when either id is unknown), bumps `updatedAt` and persists. -/
def updateMessage (s : ChatState) (conversationId messageId : String)
    (content : String) (now : Nat) : ChatState :=
  match s.conversations.find? (fun c => c.id == conversationId) with
  | none => s
  | some conv =>
    match conv.messages.find? (fun m => m.id == messageId) with
    | none => s
    | some _ =>
      saveConversations
        { s with
          conversations :=
            modifyFirst (fun c => c.id == conversationId)
              (fun c =>
                { c with
                  messages :=
                    modifyFirst (fun m => m.id == messageId)
                      (fun m => { m with content := content }) c.messages,
                  updatedAt := now })
              s.conversations }

/-- `updateReasoningContent`: replaces the reasoning content of the
addressed message (a no-op when either id is unknown), bumps `updatedAt`
and persists. The source performs no role check on the target. -/
def updateReasoningContent (s : ChatState) (conversationId messageId : String)
    (reasoningContent : String) (now : Nat) : ChatState :=
  match s.conversations.find? (fun c => c.id == conversationId) with
  | none => s
  | some conv =>
    match conv.messages.find? (fun m => m.id == messageId) with
    | none => s
    | some _ =>
      saveConversations
        { s with
          conversations :=
            modifyFirst (fun c => c.id == conversationId)
              (fun c =>
                { c with
                  messages :=
                    modifyFirst (fun m => m.id == messageId)
                      (fun m => { m with reasoningContent := some reasoningContent })
                      c.messages,
                  updatedAt := now })
              s.conversations }

/-- Joint lookup of a message inside a conversation list, both by id
(each `find?` mirrors a JavaScript `find`). -/
def lookupIn (convs : List Conversation) (conversationId messageId : String) :
    Option Message :=
  match convs.find? (fun c => c.id == conversationId) with
  | none => none
  | some conv => conv.messages.find? (fun m => m.id == messageId)

/-- Joint lookup of a message in the state's conversation list. -/
def lookupMessage (s : ChatState) (conversationId messageId : String) : Option Message :=
  lookupIn s.conversations conversationId messageId

/-- The `onReasoningChunk` closure of `sendMessage`: reads the current
reasoning content of the live assistant message (empty string when
absent), appends the chunk, and stores the concatenation through
`updateReasoningContent`. -/
def onReasoningHandler (conversationId messageId : String) (now : Nat)
    (s : ChatState) (chunk : String) : ChatState :=
  match lookupMessage s conversationId messageId with
  | none => s
  | some m =>
    updateReasoningContent s conversationId messageId
      (m.reasoningContent.getD "" ++ chunk) now

/-- The `onChunk` closure of `sendMessage`: reads the current content of
the live assistant message, appends the chunk, and stores the
concatenation through `updateMessage`. -/
def onChunkHandler (conversationId messageId : String) (now : Nat)
    (s : ChatState) (chunk : String) : ChatState :=
  match lookupMessage s conversationId messageId with
  | none => s
  | some m => updateMessage s conversationId messageId (m.content ++ chunk) now

/-- The `onComplete` closure of `sendMessage`: marks the assistant
message as no longer streaming (direct mutation, no persistence call)
and resets the session flags. -/
def onCompleteHandler (conversationId messageId : String) (s : ChatState) : ChatState :=
  let s1 :=
    match lookupMessage s conversationId messageId with
    | none => s
    | some _ =>
      { s with
        conversations :=
          modifyFirst (fun c => c.id == conversationId)
            (fun c =>
              { c with
                messages :=
                  modifyFirst (fun m => m.id == messageId)
                    (fun m => { m with isStreaming := some false }) c.messages })
            s.conversations }
  { s1 with isLoading := false, isStreaming := false }

/-- The diagnostic template written into the assistant message by the
`onError` closure of `sendMessage`. -/
def errTemplate (e : JsError) : String :=
  "抱歉，出现了错误：" ++ e.message ++
    "\n\n请检查：\n1. API Key 是否正确配置\n2. 网络连接是否正常\n3. 查看控制台了解详细错误信息"

/-- The `onError` closure of `sendMessage`: resets the session flags and
overwrites the assistant message's content with the diagnostic template,
marking it as no longer streaming (direct mutation, no persistence
call; the flag resets precede the message lookup in the source, and do
not affect it). -/
def onErrorHandler (conversationId messageId : String) (e : JsError)
    (s : ChatState) : ChatState :=
  match lookupMessage s conversationId messageId with
  | none => { s with isLoading := false, isStreaming := false }
  | some _ =>
    { s with
      isLoading := false, isStreaming := false,
      conversations :=
        modifyFirst (fun c => c.id == conversationId)
          (fun c =>
            { c with
              messages :=
                modifyFirst (fun m => m.id == messageId)
                  (fun m => { m with content := errTemplate e, isStreaming := some false })
                  c.messages })
          s.conversations }

/-- Dispatch of one streaming callback invocation to the corresponding
closure of `sendMessage`. -/
def applyCallback (conversationId messageId : String) (now : Nat)
    (s : ChatState) : CallbackEvent → ChatState
  | CallbackEvent.reasoningChunk chunk => onReasoningHandler conversationId messageId now s chunk
  | CallbackEvent.contentChunk chunk => onChunkHandler conversationId messageId now s chunk
  | CallbackEvent.complete => onCompleteHandler conversationId messageId s
  | CallbackEvent.error e => onErrorHandler conversationId messageId e s

/-- Model of JavaScript `String.prototype.trim`: removes whitespace from
both ends of the string (defined over the character list so that it is
kernel-executable). -/
def jsTrim (s : String) : String :=
  ⟨((s.data.dropWhile Char.isWhitespace).reverse.dropWhile Char.isWhitespace).reverse⟩

/-- Behaviour of the stream session from the orchestrator's point of
view: either the dynamic import / service call throws before any
callback runs, or it invokes the given callbacks in order and returns. -/
inductive SessionBehavior where
  | throwEx
  | run (evs : List CallbackEvent)
deriving Repr, DecidableEq

/-- Steps 3–11 of the `sendMessage` orchestration, given the resolved
active conversation: appends the trimmed user message; sets the session
flags; appends the streaming assistant placeholder inside the try block
(`if (!aiMessage) return` keeps the flags set); then either the session
throws (caught: flags reset, nothing else) or the callbacks run through
the closures. -/
def sendMessageCore (s1 : ChatState) (conv : Conversation) (content : String)
    (userMsgId aiMsgId : String) (now : Nat) (session : SessionBehavior) : ChatState :=
  let s2 := (addMessage s1 conv.id ⟨Role.user, jsTrim content, none, none⟩ userMsgId now).1
  let s3 := { s2 with isLoading := true, isStreaming := true }
  let r4 := addMessage s3 conv.id ⟨Role.assistant, "", some true, none⟩ aiMsgId now
  match r4.2 with
  | none => r4.1
  | some aiMsg =>
    match session with
    | SessionBehavior.throwEx => { r4.1 with isLoading := false, isStreaming := false }
    | SessionBehavior.run evs =>
      evs.foldl (applyCallback conv.id aiMsg.id now) r4.1

/-- The `sendMessage` orchestration: ignores blank input; ensures an
active conversation (creating one when needed); then runs
`sendMessageCore` (steps 3–11). Fresh ids for a possibly created
conversation and for the two messages, and the current time, are passed
in explicitly. -/
def sendMessage (s : ChatState) (content : String)
    (freshConvId userMsgId aiMsgId : String) (now : Nat)
    (session : SessionBehavior) : ChatState :=
  if (jsTrim content).isEmpty then s
  else
    match activeConversation s with
    | some conv => sendMessageCore s conv content userMsgId aiMsgId now session
    | none =>
      let r := createConversation s freshConvId now
      sendMessageCore r.1 r.2 content userMsgId aiMsgId now session

/-- `loadConversations`: restores the conversation array from the
persistence store (a parse failure is logged and leaves the state
unchanged), then restores the active id when it is non-empty and still
references an existing conversation, else falls back to the first
conversation (`conversations[0]?.id || null`), else creates a fresh
conversation. -/
def loadConversations (s : ChatState) (freshId : String) (now : Nat) : ChatState :=
  let s1 :=
    match s.storage.conversations with
    | StoredConvs.absent => s
    | StoredConvs.malformed => s
    | StoredConvs.ok cs => { s with conversations := cs }
  let savedOk : Bool :=
    match s.storage.activeId with
    | some aid => aid != "" && (s1.conversations.find? (fun c => c.id == aid)).isSome
    | none => false
  if savedOk then
    { s1 with activeConversationId := s.storage.activeId }
  else if 0 < s1.conversations.length then
    { s1 with
      activeConversationId :=
        match s1.conversations.head? with
        | some c => if c.id == "" then none else some c.id
        | none => none }
  else (createConversation s1 freshId now).1

/-! ### Invariant and helper predicates -/

/-- The data-model condition on a single message: a user message has no
reasoning content and is never marked streaming. -/
def userMsgOK (m : Message) : Bool :=
  match m.role with
  | Role.user => m.reasoningContent.isNone && m.isStreaming != some true
  | Role.assistant => true

/-- All messages of a conversation satisfy `userMsgOK`. -/
def convOK (c : Conversation) : Bool := c.messages.all userMsgOK

/-- The stored conversation array (when present and parseable) satisfies
the invariant. -/
def storedOK : StoredConvs → Bool
  | StoredConvs.ok cs => cs.all convOK
  | _ => true

/-- The data-model invariant of claim C5 over the whole state, including
the persisted copy. -/
def invState (s : ChatState) : Bool :=
  s.conversations.all convOK && storedOK s.storage.conversations

/-- The argument of `addMessage` does not itself violate the invariant. -/
def newMsgOK (p : NewMessage) : Bool :=
  match p.role with
  | Role.user => p.reasoningContent.isNone && p.isStreaming != some true
  | Role.assistant => true

/-- Decidable form of "whatever message the pair of ids resolves to (if
any) is an assistant message". -/
def lookupRoleAssistant (s : ChatState) (conversationId messageId : String) : Bool :=
  match lookupMessage s conversationId messageId with
  | some m => m.role == Role.assistant
  | none => true

/-- Decidable form of "no message anywhere in the state carries this
id". -/
def idFresh (s : ChatState) (i : String) : Bool :=
  s.conversations.all (fun c => c.messages.all (fun m => m.id != i))

/-- Concatenation of a list of strings in order. -/
def concatAll : List String → String
  | [] => ""
  | x :: xs => x ++ concatAll xs

/-- The content chunks of a callback trace, in order. -/
def contentTexts (evs : List CallbackEvent) : List String :=
  evs.filterMap fun e =>
    match e with
    | CallbackEvent.contentChunk c => some c
    | _ => none

/-- The reasoning chunks of a callback trace, in order. -/
def reasoningTexts (evs : List CallbackEvent) : List String :=
  evs.filterMap fun e =>
    match e with
    | CallbackEvent.reasoningChunk r => some r
    | _ => none

/-- Whether a callback event is a chunk event (reasoning or content). -/
def isChunkEvent : CallbackEvent → Bool
  | CallbackEvent.reasoningChunk _ => true
  | CallbackEvent.contentChunk _ => true
  | _ => false

/-- Whether a callback event is an `onError` invocation. -/
def isErrorEvent : CallbackEvent → Bool
  | CallbackEvent.error _ => true
  | _ => false

/-! ### Helper lemmas about lists -/

theorem modifyFirst_of_find?_none (p : α → Bool) (f : α → α) (l : List α)
    (h : l.find? p = none) : modifyFirst p f l = l := by
  induction l with
  | nil => rfl
  | cons x xs ih =>
    rw [List.find?_eq_none] at h
    have hx : ¬p x = true := h x (by simp)
    have hx2 : p x = false := by simpa using hx
    simp only [modifyFirst, hx2, Bool.false_eq_true, if_false, List.cons.injEq, true_and]
    exact ih (List.find?_eq_none.mpr fun y hy => h y (by simp [hy]))

theorem find?_modifyFirst (p : α → Bool) (f : α → α) (l : List α)
    (hf : ∀ x, p x = true → p (f x) = true) :
    (modifyFirst p f l).find? p = (l.find? p).map f := by
  induction l with
  | nil => rfl
  | cons x xs ih =>
    by_cases hx : p x = true
    · simp only [modifyFirst, hx, if_true]
      rw [List.find?_cons_of_pos _ (hf x hx), List.find?_cons_of_pos _ hx]
      rfl
    · have hx2 : p x = false := by simpa using hx
      simp only [modifyFirst, hx2, Bool.false_eq_true, if_false]
      rw [List.find?_cons_of_neg _ hx, List.find?_cons_of_neg _ hx]
      exact ih

theorem find?_modifyFirst_of_eq (p : α → Bool) (f : α → α) (l : List α)
    (hf : ∀ x, p (f x) = p x) :
    (modifyFirst p f l).find? p = (l.find? p).map f :=
  find?_modifyFirst p f l fun x hx => by rw [hf x]; exact hx

theorem modifyFirst_decomp (p : α → Bool) (f : α → α) (l : List α) (x : α)
    (h : l.find? p = some x) :
    ∃ l1 l2, l = l1 ++ x :: l2 ∧ modifyFirst p f l = l1 ++ f x :: l2 := by
  induction l with
  | nil => simp [List.find?] at h
  | cons y ys ih =>
    by_cases hy : p y = true
    · rw [List.find?_cons_of_pos _ hy] at h
      obtain rfl : y = x := by injection h
      exact ⟨[], ys, by simp, by simp [modifyFirst, hy]⟩
    · rw [List.find?_cons_of_neg _ hy] at h
      obtain ⟨l1, l2, hsplit, hmod⟩ := ih h
      have hy2 : p y = false := by simpa using hy
      refine ⟨y :: l1, l2, by simp [hsplit], ?_⟩
      simp [modifyFirst, hy2, hmod]

theorem all_modifyFirst (q p : α → Bool) (f : α → α) (l : List α)
    (hl : l.all q = true) (hf : ∀ x, l.find? p = some x → q (f x) = true) :
    (modifyFirst p f l).all q = true := by
  cases hfind : l.find? p with
  | none => rw [modifyFirst_of_find?_none p f l hfind]; exact hl
  | some x =>
    obtain ⟨l1, l2, hsplit, hmod⟩ := modifyFirst_decomp p f l x hfind
    rw [hmod]
    rw [hsplit] at hl
    rw [List.all_eq_true] at hl ⊢
    intro y hy
    rcases List.mem_append.mp hy with h1 | h2
    · exact hl y (List.mem_append.mpr (Or.inl h1))
    · rcases List.mem_cons.mp h2 with h2 | h2
      · rw [h2]; exact hf x hfind
      · exact hl y (List.mem_append.mpr (Or.inr (List.mem_cons.mpr (Or.inr h2))))

theorem findIndex_append_first (p : α → Bool) (l1 : List α) (c : α) (l2 : List α)
    (h1 : ∀ x ∈ l1, p x = false) (hc : p c = true) :
    findIndex p (l1 ++ c :: l2) = some l1.length := by
  induction l1 with
  | nil => simp [findIndex, hc]
  | cons y ys ih =>
    have hy := h1 y (by simp)
    simp [findIndex, hy, ih (fun x hx => h1 x (by simp [hx]))]

theorem findIndex_none (p : α → Bool) (l : List α) (h : ∀ x ∈ l, p x = false) :
    findIndex p l = none := by
  induction l with
  | nil => rfl
  | cons y ys ih => simp [findIndex, h y (by simp), ih (fun x hx => h x (by simp [hx]))]

theorem eraseIdx_append_length (l1 : List α) (c : α) (l2 : List α) :
    (l1 ++ c :: l2).eraseIdx l1.length = l1 ++ l2 := by
  induction l1 with
  | nil => simp
  | cons y ys ih => simp [ih]

theorem all_eraseIdx (q : α → Bool) (l : List α) (i : Nat) (hl : l.all q = true) :
    (l.eraseIdx i).all q = true := by
  induction l generalizing i with
  | nil => simp
  | cons y ys ih =>
    cases i with
    | zero =>
      simp only [List.all_cons, Bool.and_eq_true] at hl
      simp only [List.eraseIdx_cons_zero]
      exact hl.2
    | succ n =>
      simp only [List.all_cons, Bool.and_eq_true] at hl
      simp only [List.eraseIdx_cons_succ, List.all_cons, Bool.and_eq_true]
      exact ⟨hl.1, ih n hl.2⟩

theorem find?_append_left_none (p : α → Bool) (l1 l2 : List α)
    (h : ∀ x ∈ l1, p x = false) : (l1 ++ l2).find? p = l2.find? p := by
  induction l1 with
  | nil => rfl
  | cons y ys ih =>
    simp only [List.cons_append]
    rw [List.find?_cons_of_neg _ (by simp [h y (by simp)])]
    exact ih fun x hx => h x (by simp [hx])

/-! ### Routing lemmas (StreamDecoder / ChunkRouter) -/

theorem processLines_append (a : Bool) (l1 l2 : List Line) :
    processLines a (l1 ++ l2) =
      ⟨(processLines a l1).events ++ (processLines (processLines a l1).answering l2).events,
       (processLines a l1).parseFailures
         + (processLines (processLines a l1).answering l2).parseFailures,
       (processLines (processLines a l1).answering l2).answering⟩ := by
  induction l1 generalizing a with
  | nil => simp [processLines]
  | cons l ls ih =>
    show processLines a (l :: (ls ++ l2)) = _
    simp only [processLines, List.append_eq]
    rw [ih]
    simp [List.append_assoc, Nat.add_assoc]

theorem processDelta_no_terminal (a : Bool) (d : Delta) :
    (processDelta a d).1.filter isTerminal = [] := by
  obtain ⟨rc, cc⟩ := d
  cases rc <;> cases cc <;> cases a <;>
    dsimp only [processDelta] <;>
    first
      | rfl
      | (split <;> rfl)

theorem processLineOne_no_terminal (a : Bool) (l : Line) :
    (processLineOne a l).events.filter isTerminal = [] := by
  cases l with
  | empty => rfl
  | nonData => rfl
  | data p =>
    cases p with
    | done => rfl
    | malformed => rfl
    | usage => rfl
    | noChoices => rfl
    | delta d => exact processDelta_no_terminal a d

theorem processLines_no_terminal (a : Bool) (ls : List Line) :
    (processLines a ls).events.filter isTerminal = [] := by
  induction ls generalizing a with
  | nil => rfl
  | cons l ls ih =>
    show ((processLineOne a l).events ++ _).filter isTerminal = []
    rw [List.filter_append, processLineOne_no_terminal, ih]
    rfl

theorem runReads_no_terminal (a : Bool) (reads : List ReadChunk) :
    (runReads a reads).events.filter isTerminal = [] := by
  induction reads generalizing a with
  | nil => rfl
  | cons rc rest ih =>
    show ((processLines a rc.lines).events ++ _).filter isTerminal = []
    rw [List.filter_append, processLines_no_terminal, ih]
    rfl

theorem phaseLatch_processDelta (a : Bool) (d : Delta) (rest : List CallbackEvent) :
    phaseLatch a ((processDelta a d).1 ++ rest) = phaseLatch (processDelta a d).2 rest := by
  unfold processDelta
  cases d.reasoning_content <;> cases d.content <;> cases a <;>
    simp [phaseLatch] <;> split <;> simp [phaseLatch]

theorem phaseLatch_processLineOne (a : Bool) (l : Line) (rest : List CallbackEvent) :
    phaseLatch a ((processLineOne a l).events ++ rest)
      = phaseLatch (processLineOne a l).answering rest := by
  cases l with
  | empty => rfl
  | nonData => rfl
  | data p =>
    cases p with
    | done => rfl
    | malformed => rfl
    | usage => rfl
    | noChoices => rfl
    | delta d => exact phaseLatch_processDelta a d rest

theorem phaseLatch_processLines (a : Bool) (ls : List Line) (rest : List CallbackEvent) :
    phaseLatch a ((processLines a ls).events ++ rest)
      = phaseLatch (processLines a ls).answering rest := by
  induction ls generalizing a rest with
  | nil => rfl
  | cons l ls ih =>
    show phaseLatch a (((processLineOne a l).events ++ _) ++ rest) = _
    rw [List.append_assoc, phaseLatch_processLineOne, ih]
    rfl

theorem phaseLatch_runReads (a : Bool) (reads : List ReadChunk) (rest : List CallbackEvent) :
    phaseLatch a ((runReads a reads).events ++ rest)
      = phaseLatch (runReads a reads).answering rest := by
  induction reads generalizing a rest with
  | nil => rfl
  | cons rc rs ih =>
    show phaseLatch a (((processLines a rc.lines).events ++ _) ++ rest) = _
    rw [List.append_assoc, phaseLatch_processLines, ih]
    rfl

theorem phaseLatch_no_reasoning (l : List CallbackEvent) (h : phaseLatch true l = true)
    (r : String) : CallbackEvent.reasoningChunk r ∉ l := by
  induction l with
  | nil => simp
  | cons e rest ih =>
    cases e with
    | reasoningChunk r2 => simp [phaseLatch] at h
    | contentChunk c =>
      rw [phaseLatch] at h
      simp [List.mem_cons, ih h]
    | complete =>
      simp only [phaseLatch] at h
      simp [List.mem_cons, ih h]
    | error e2 =>
      simp only [phaseLatch] at h
      simp [List.mem_cons, ih h]

theorem phaseLatch_split (a : Bool) (l1 l2 : List CallbackEvent) (c r : String)
    (h : phaseLatch a (l1 ++ CallbackEvent.contentChunk c :: l2) = true) :
    CallbackEvent.reasoningChunk r ∉ l2 := by
  induction l1 generalizing a with
  | nil =>
    rw [List.nil_append, phaseLatch] at h
    exact phaseLatch_no_reasoning l2 h r
  | cons e l1 ih =>
    cases e with
    | reasoningChunk r2 =>
      rw [List.cons_append] at h
      simp only [phaseLatch, Bool.and_eq_true] at h
      exact ih a h.2
    | contentChunk c2 =>
      rw [List.cons_append, phaseLatch] at h
      exact ih true h
    | complete =>
      rw [List.cons_append] at h
      simp only [phaseLatch] at h
      exact ih a h
    | error e2 =>
      rw [List.cons_append] at h
      simp only [phaseLatch] at h
      exact ih a h

theorem phaseLatch_send (t : Nat) (fr : FetchResult) :
    phaseLatch false (eventsOf (sendStreamTimed t fr)) = true := by
  unfold sendStreamTimed
  split
  · rfl
  · unfold serviceRun
    cases fr with
    | reject e => rfl
    | response ok status errorText hasBody reads endKind =>
      cases ok with
      | false => rfl
      | true =>
        cases hasBody with
        | false => rfl
        | true =>
          cases endKind with
          | eof =>
            show phaseLatch false ((runReads false reads).events ++ [CallbackEvent.complete]) = true
            rw [phaseLatch_runReads]
            rfl
          | stall =>
            show phaseLatch false (eventsOf (RunResult.hangs (runReads false reads).events)) = true
            have := phaseLatch_runReads false reads []
            simpa using this
          | failMid e =>
            show phaseLatch false
                ((runReads false reads).events ++ [CallbackEvent.error (mapCaughtError e)]) = true
            rw [phaseLatch_runReads]
            rfl

/-- Claim C1: within a single invocation of `sendStreamMessage`, once a
content chunk has been routed (`onChunk` invoked), no subsequent frame
causes `onReasoningChunk` to be invoked for that same session, regardless
of the order of reasoning/content fields in the frames that follow: in
the callback trace, no reasoning-chunk event ever follows a
content-chunk event. -/
theorem claim1_one_way_phase_latch (t : Nat) (fr : FetchResult)
    (l1 l2 : List CallbackEvent) (c r : String)
    (h : eventsOf (sendStreamTimed t fr) = l1 ++ CallbackEvent.contentChunk c :: l2) :
    CallbackEvent.reasoningChunk r ∉ l2 := by
  have hl := phaseLatch_send t fr
  rw [h] at hl
  exact phaseLatch_split false l1 l2 c r hl

/-- Witness for C1: a concrete stream whose frames carry reasoning text
after the first content chunk; the late reasoning text is not routed. -/
theorem claim1_one_way_phase_latch_witness :
    CallbackEvent.reasoningChunk "late" ∉ [CallbackEvent.complete] :=
  claim1_one_way_phase_latch 0
    (FetchResult.response true 200 "" true
      [⟨1, [Line.data (Payload.delta ⟨some "think", none⟩),
            Line.data (Payload.delta ⟨none, some "answer"⟩),
            Line.data (Payload.delta ⟨some "late", none⟩)]⟩]
      BodyEnd.eof)
    [CallbackEvent.reasoningChunk "think"] [CallbackEvent.complete] "answer" "late"
    (by decide)

theorem terminalsOf_send (t : Nat) (fr : FetchResult) :
    terminalsOf (sendStreamTimed t fr) =
      if 60000 < t then [CallbackEvent.error ⟨"Error", "请求超时"⟩]
      else
        match fr with
        | FetchResult.reject e => [CallbackEvent.error (mapCaughtError e)]
        | FetchResult.response ok status errorText hasBody _ endKind =>
          if !ok then
            [CallbackEvent.error ⟨"Error", "HTTP " ++ toString status ++ ": " ++ errorText⟩]
          else if !hasBody then [CallbackEvent.error ⟨"Error", "响应体为空"⟩]
          else
            match endKind with
            | BodyEnd.eof => [CallbackEvent.complete]
            | BodyEnd.stall => []
            | BodyEnd.failMid e => [CallbackEvent.error (mapCaughtError e)] := by
  unfold sendStreamTimed terminalsOf
  split
  · rfl
  · unfold serviceRun
    cases fr with
    | reject e => rfl
    | response ok status errorText hasBody reads endKind =>
      cases ok with
      | false => rfl
      | true =>
        cases hasBody with
        | false => rfl
        | true =>
          cases endKind with
          | eof =>
            show ((runReads false reads).events ++ [CallbackEvent.complete]).filter isTerminal = _
            rw [List.filter_append, runReads_no_terminal]
            rfl
          | stall =>
            show (runReads false reads).events.filter isTerminal = _
            rw [runReads_no_terminal]
            rfl
          | failMid e =>
            show ((runReads false reads).events
                ++ [CallbackEvent.error (mapCaughtError e)]).filter isTerminal = _
            rw [List.filter_append, runReads_no_terminal]
            rfl

/-- Claim C3: terminal callbacks of one `sendStreamMessage` invocation
fire at most once each and never both (the list of terminal callback
invocations has at most one element); `onComplete` fires exactly once on
normal end-of-stream; on any failure path (timeout, network failure,
HTTP error, missing body, mid-stream read failure) `onError` fires
exactly once; a body read that never settles fires neither (the
invocation never returns). -/
theorem claim3_terminal_callbacks_once (t : Nat) (fr : FetchResult) :
    (terminalsOf (sendStreamTimed t fr)).length ≤ 1 ∧
    (normalEnd t fr = true →
      terminalsOf (sendStreamTimed t fr) = [CallbackEvent.complete]) ∧
    (normalEnd t fr = false → hangPath t fr = false →
      (terminalsOf (sendStreamTimed t fr)).length = 1 ∧
      (terminalsOf (sendStreamTimed t fr)).all isErrorEvent = true) ∧
    (hangPath t fr = true → terminalsOf (sendStreamTimed t fr) = []) := by
  rw [terminalsOf_send]
  unfold normalEnd hangPath
  by_cases ht : 60000 < t
  · have ht2 : ¬t ≤ 60000 := by omega
    simp only [ht, if_true]
    refine ⟨by simp, ?_, ?_, ?_⟩
    · intro h
      simp only [Bool.and_eq_true, decide_eq_true_eq] at h
      exact absurd h.1 ht2
    · intro _ _
      simp [isErrorEvent]
    · intro h
      simp only [Bool.and_eq_true, decide_eq_true_eq] at h
      exact absurd h.1 ht2
  · have ht2 : t ≤ 60000 := by omega
    simp only [ht, if_false]
    cases fr with
    | reject e =>
      refine ⟨by simp, by simp, ?_, by simp⟩
      intro _ _
      simp [isErrorEvent]
    | response ok status errorText hasBody reads endKind =>
      cases ok with
      | false =>
        refine ⟨by simp, ?_, ?_, ?_⟩ <;> cases endKind <;> simp [isErrorEvent]
      | true =>
        cases hasBody with
        | false =>
          refine ⟨by simp, ?_, ?_, ?_⟩ <;> cases endKind <;> simp [isErrorEvent]
        | true =>
          cases endKind with
          | eof =>
            refine ⟨by simp, by simp, ?_, by simp⟩
            simp [ht2]
          | stall =>
            refine ⟨by simp, by simp, ?_, by simp⟩
            intro _ h
            simp [ht2] at h
          | failMid e =>
            refine ⟨by simp, by simp, ?_, by simp⟩
            intro _ _
            simp [isErrorEvent]

/-- Witness for C3: on a concrete normal end-of-stream the terminal
trace is exactly one `onComplete`; on a concrete HTTP 500 response it is
exactly one `onError`. -/
theorem claim3_terminal_callbacks_once_witness :
    (normalEnd 0 (FetchResult.response true 200 "" true
        [⟨1, [Line.data (Payload.delta ⟨none, some "hi"⟩)]⟩] BodyEnd.eof) = true ∧
      terminalsOf (sendStreamTimed 0 (FetchResult.response true 200 "" true
        [⟨1, [Line.data (Payload.delta ⟨none, some "hi"⟩)]⟩] BodyEnd.eof))
        = [CallbackEvent.complete]) ∧
    (terminalsOf (sendStreamTimed 0 (FetchResult.response false 500 "oops" true [] BodyEnd.eof))).length = 1 ∧
    (terminalsOf (sendStreamTimed 0 (FetchResult.response false 500 "oops" true [] BodyEnd.eof))).all isErrorEvent = true :=
  ⟨⟨by decide,
    (claim3_terminal_callbacks_once 0 (FetchResult.response true 200 "" true
      [⟨1, [Line.data (Payload.delta ⟨none, some "hi"⟩)]⟩] BodyEnd.eof)).2.1 (by decide)⟩,
   (claim3_terminal_callbacks_once 0
      (FetchResult.response false 500 "oops" true [] BodyEnd.eof)).2.2.1
      (by decide) (by decide)⟩

/-- Counterexample refuting C4 as stated: a transfer whose headers
arrive after 1 s but whose single body read takes 120 s (total transfer
time 121 s, far beyond the 60-second timeout) is NOT cancelled and
receives no timeout error — the run completes normally with `onChunk`
and `onComplete` — because the source clears the timeout timer as soon
as `fetch` resolves (line 124), before the streaming loop begins. -/
theorem claim4_counterexample :
    sendStreamTimed 1000 (FetchResult.response true 200 "" true
        [⟨120000, [Line.data (Payload.delta ⟨none, some "hi"⟩)]⟩] BodyEnd.eof)
      = RunResult.finished [CallbackEvent.contentChunk "hi", CallbackEvent.complete] ∧
    60000 < transferTime 1000 (FetchResult.response true 200 "" true
        [⟨120000, [Line.data (Payload.delta ⟨none, some "hi"⟩)]⟩] BodyEnd.eof) := by
  constructor
  · rfl
  · decide

/-- Claim C4 as amended: the 60-second wall-clock timeout armed at
request start covers only the phase until the response headers arrive —
if the fetch is still pending after 60 s it is aborted and `onError`
fires with the timeout-specific error; once the fetch settles within
the window the timer is cleared, and the body-streaming phase runs with
no timeout at all (its outcome is exactly `serviceRun`, independent of
read durations). -/
theorem claim4_amended_timeout_headers_only (t : Nat) (fr : FetchResult) :
    (60000 < t →
      sendStreamTimed t fr
        = RunResult.finished [CallbackEvent.error ⟨"Error", "请求超时"⟩]) ∧
    (t ≤ 60000 → sendStreamTimed t fr = serviceRun fr) := by
  constructor
  · intro h
    unfold sendStreamTimed
    simp [h]
  · intro h
    unfold sendStreamTimed
    have h2 : ¬60000 < t := by omega
    simp [h2]

/-- Witness for the amended C4: a fetch pending for 70 s is aborted with
the timeout error; a fetch settling after 1 s streams with no timeout. -/
theorem claim4_amended_timeout_headers_only_witness :
    (60000 < 70000 ∧
      sendStreamTimed 70000 (FetchResult.reject ⟨"TypeError", "network down"⟩)
        = RunResult.finished [CallbackEvent.error ⟨"Error", "请求超时"⟩]) ∧
    (1000 ≤ 60000 ∧
      sendStreamTimed 1000 (FetchResult.response true 200 "" true
          [⟨120000, [Line.data (Payload.delta ⟨none, some "hi"⟩)]⟩] BodyEnd.eof)
        = serviceRun (FetchResult.response true 200 "" true
          [⟨120000, [Line.data (Payload.delta ⟨none, some "hi"⟩)]⟩] BodyEnd.eof)) :=
  ⟨⟨by decide,
    (claim4_amended_timeout_headers_only 70000
      (FetchResult.reject ⟨"TypeError", "network down"⟩)).1 (by decide)⟩,
   ⟨by decide,
    (claim4_amended_timeout_headers_only 1000
      (FetchResult.response true 200 "" true
        [⟨120000, [Line.data (Payload.delta ⟨none, some "hi"⟩)]⟩] BodyEnd.eof)).2
      (by decide)⟩⟩

/-- Claim C9: a data frame whose payload is malformed JSON is recovered
locally — the parse failure is logged (one more `console.error`), no
callback event differs from the run without the malformed frame (so the
valid frames before and after are still routed and the phase flag is
unaffected), and line routing never produces a terminal callback, so
neither `onError` nor `onComplete` fires because of it. -/
theorem claim9_malformed_frame_recovered (a : Bool) (pre post : List Line) :
    (processLines a (pre ++ Line.data Payload.malformed :: post)).events
      = (processLines a (pre ++ post)).events ∧
    (processLines a (pre ++ Line.data Payload.malformed :: post)).answering
      = (processLines a (pre ++ post)).answering ∧
    (processLines a (pre ++ Line.data Payload.malformed :: post)).parseFailures
      = (processLines a (pre ++ post)).parseFailures + 1 ∧
    (processLines a (pre ++ Line.data Payload.malformed :: post)).events.filter isTerminal
      = [] := by
  have hsplit1 := processLines_append a pre (Line.data Payload.malformed :: post)
  have hsplit2 := processLines_append a pre post
  refine ⟨?_, ?_, ?_, processLines_no_terminal _ _⟩
  · rw [hsplit1, hsplit2]
    simp [processLines, processLineOne]
  · rw [hsplit1, hsplit2]
    simp [processLines, processLineOne]
  · rw [hsplit1, hsplit2]
    simp [processLines, processLineOne]
    omega

/-! ### Store lemmas: message lookup through the mutation operations -/

theorem lookupMessage_elim (s : ChatState) (cid mid : String) (m : Message)
    (h : lookupMessage s cid mid = some m) :
    ∃ conv, s.conversations.find? (fun c => c.id == cid) = some conv ∧
      conv.messages.find? (fun x => x.id == mid) = some m := by
  unfold lookupMessage lookupIn at h
  cases hc : s.conversations.find? (fun c => c.id == cid) with
  | none => rw [hc] at h; simp at h
  | some conv =>
    rw [hc] at h
    exact ⟨conv, rfl, h⟩

theorem lookupIn_modifyFirst (convs : List Conversation) (cid mid : String)
    (F : Conversation → Conversation) (g : Message → Message)
    (hFid : ∀ c, (F c).id = c.id)
    (hFmsgs : ∀ c, (F c).messages = modifyFirst (fun x => x.id == mid) g c.messages)
    (hgid : ∀ x, (g x).id = x.id)
    (m : Message) (h : lookupIn convs cid mid = some m) :
    lookupIn (modifyFirst (fun c => c.id == cid) F convs) cid mid = some (g m) := by
  unfold lookupIn at h ⊢
  cases hc : convs.find? (fun c => c.id == cid) with
  | none => rw [hc] at h; simp at h
  | some conv =>
    rw [hc] at h
    rw [find?_modifyFirst _ F convs (fun x hx => by rw [hFid x]; exact hx)]
    rw [hc]
    simp only [Option.map_some']
    rw [hFmsgs conv]
    rw [find?_modifyFirst _ g conv.messages (fun x hx => by rw [hgid x]; exact hx)]
    have h2 : List.find? (fun x => x.id == mid) conv.messages = some m := h
    rw [h2]
    rfl

theorem lookupMessage_updateMessage (s : ChatState) (cid mid text : String) (now : Nat)
    (m : Message) (h : lookupMessage s cid mid = some m) :
    lookupMessage (updateMessage s cid mid text now) cid mid
      = some { m with content := text } := by
  obtain ⟨conv, hc, hm⟩ := lookupMessage_elim s cid mid m h
  simp only [updateMessage, hc, hm]
  unfold lookupMessage saveConversations
  refine lookupIn_modifyFirst s.conversations cid mid _ (fun x => { x with content := text })
    ?_ ?_ ?_ m h
  · intro c; rfl
  · intro c; rfl
  · intro x; rfl

theorem lookupMessage_updateReasoning (s : ChatState) (cid mid text : String) (now : Nat)
    (m : Message) (h : lookupMessage s cid mid = some m) :
    lookupMessage (updateReasoningContent s cid mid text now) cid mid
      = some { m with reasoningContent := some text } := by
  obtain ⟨conv, hc, hm⟩ := lookupMessage_elim s cid mid m h
  simp only [updateReasoningContent, hc, hm]
  unfold lookupMessage saveConversations
  refine lookupIn_modifyFirst s.conversations cid mid _
    (fun x => { x with reasoningContent := some text }) ?_ ?_ ?_ m h
  · intro c; rfl
  · intro c; rfl
  · intro x; rfl

theorem lookupMessage_onChunkHandler (s : ChatState) (cid mid : String) (now : Nat)
    (chunk : String) (m : Message) (h : lookupMessage s cid mid = some m) :
    lookupMessage (onChunkHandler cid mid now s chunk) cid mid
      = some { m with content := m.content ++ chunk } := by
  simp only [onChunkHandler, h]
  exact lookupMessage_updateMessage s cid mid (m.content ++ chunk) now m h

theorem lookupMessage_onReasoningHandler (s : ChatState) (cid mid : String) (now : Nat)
    (chunk : String) (m : Message) (h : lookupMessage s cid mid = some m) :
    lookupMessage (onReasoningHandler cid mid now s chunk) cid mid
      = some { m with reasoningContent := some (m.reasoningContent.getD "" ++ chunk) } := by
  simp only [onReasoningHandler, h]
  exact lookupMessage_updateReasoning s cid mid (m.reasoningContent.getD "" ++ chunk) now m h

theorem lookupMessage_onCompleteHandler (s : ChatState) (cid mid : String)
    (m : Message) (h : lookupMessage s cid mid = some m) :
    lookupMessage (onCompleteHandler cid mid s) cid mid
      = some { m with isStreaming := some false } := by
  simp only [onCompleteHandler, h]
  unfold lookupMessage
  refine lookupIn_modifyFirst s.conversations cid mid _
    (fun x => { x with isStreaming := some false }) ?_ ?_ ?_ m h
  · intro c; rfl
  · intro c; rfl
  · intro x; rfl

theorem lookupMessage_onErrorHandler (s : ChatState) (cid mid : String) (e : JsError)
    (m : Message) (h : lookupMessage s cid mid = some m) :
    lookupMessage (onErrorHandler cid mid e s) cid mid
      = some { m with content := errTemplate e, isStreaming := some false } := by
  simp only [onErrorHandler, h]
  unfold lookupMessage
  refine lookupIn_modifyFirst s.conversations cid mid _
    (fun x => { x with content := errTemplate e, isStreaming := some false }) ?_ ?_ ?_ m h
  · intro c; rfl
  · intro c; rfl
  · intro x; rfl

/-- Claim C6 (main induction): folding any sequence of chunk events
through the `sendMessage` closures appends the chunk texts, in arrival
order, to the addressed message's content and reasoning text. -/
theorem foldl_chunks_concat (evs : List CallbackEvent) (s : ChatState)
    (cid mid : String) (now : Nat) (m : Message)
    (hm : lookupMessage s cid mid = some m)
    (hevs : ∀ e ∈ evs, isChunkEvent e = true) :
    (lookupMessage (evs.foldl (applyCallback cid mid now) s) cid mid).map Message.content
        = some (m.content ++ concatAll (contentTexts evs)) ∧
    (lookupMessage (evs.foldl (applyCallback cid mid now) s) cid mid).map
        (fun x => x.reasoningContent.getD "")
        = some (m.reasoningContent.getD "" ++ concatAll (reasoningTexts evs)) := by
  induction evs generalizing s m with
  | nil =>
    simp only [List.foldl_nil, hm, Option.map_some, concatAll, contentTexts,
      reasoningTexts, List.filterMap_nil, String.append_empty]
    exact ⟨rfl, rfl⟩
  | cons e rest ih =>
    cases e with
    | reasoningChunk r =>
      have h1 := lookupMessage_onReasoningHandler s cid mid now r m hm
      have ih2 := ih (onReasoningHandler cid mid now s r) _ h1
        (fun x hx => hevs x (by simp [hx]))
      simp only [List.foldl_cons, applyCallback]
      refine ⟨?_, ?_⟩
      · rw [ih2.1]
        simp [contentTexts]
      · rw [ih2.2]
        simp only [contentTexts, reasoningTexts, List.filterMap_cons, concatAll,
          Option.getD_some]
        rw [String.append_assoc]
    | contentChunk c =>
      have h1 := lookupMessage_onChunkHandler s cid mid now c m hm
      have ih2 := ih (onChunkHandler cid mid now s c) _ h1
        (fun x hx => hevs x (by simp [hx]))
      simp only [List.foldl_cons, applyCallback]
      refine ⟨?_, ?_⟩
      · rw [ih2.1]
        simp only [contentTexts, List.filterMap_cons, concatAll]
        rw [String.append_assoc]
      · rw [ih2.2]
        simp [reasoningTexts]
    | complete => exact absurd (hevs CallbackEvent.complete (by simp)) (by simp [isChunkEvent])
    | error e2 =>
      exact absurd (hevs (CallbackEvent.error e2) (by simp)) (by simp [isChunkEvent])

/-- Claim C6: for every sequence of reasoning and content chunks
delivered to `sendMessage`'s `onReasoningChunk` / `onChunk` handlers,
the final stored `reasoningContent` and `content` of the assistant
message equal the exact concatenation of the respective chunks in
arrival order — no reordering, loss, or duplication (starting from the
placeholder's empty content and absent reasoning, the final texts are
exactly the concatenations). -/
theorem claim6_chunk_concatenation (evs : List CallbackEvent) (s : ChatState)
    (cid mid : String) (now : Nat) (m : Message)
    (hm : lookupMessage s cid mid = some m)
    (hcontent : m.content = "") (hreason : m.reasoningContent = none)
    (hevs : ∀ e ∈ evs, isChunkEvent e = true) :
    (lookupMessage (evs.foldl (applyCallback cid mid now) s) cid mid).map Message.content
        = some (concatAll (contentTexts evs)) ∧
    (lookupMessage (evs.foldl (applyCallback cid mid now) s) cid mid).map
        (fun x => x.reasoningContent.getD "")
        = some (concatAll (reasoningTexts evs)) := by
  have h := foldl_chunks_concat evs s cid mid now m hm hevs
  rw [hcontent, hreason] at h
  simpa using h

/-- Witness for C6: a concrete interleaved chunk sequence (reasoning,
content, reasoning, content) applied to a fresh assistant placeholder
yields content `"answer"` and reasoning text `"think"`. -/
theorem claim6_chunk_concatenation_witness :
    (lookupMessage
        (List.foldl (applyCallback "c1" "a1" 7)
          ⟨[⟨"c1", "t", [⟨"a1", Role.assistant, "", 5, some true, none⟩], 0, 0⟩],
            some "c1", true, true, ⟨StoredConvs.absent, none⟩, 0⟩
          [CallbackEvent.reasoningChunk "th", CallbackEvent.contentChunk "an",
           CallbackEvent.reasoningChunk "ink", CallbackEvent.contentChunk "swer"])
        "c1" "a1").map Message.content
      = some (concatAll (contentTexts
          [CallbackEvent.reasoningChunk "th", CallbackEvent.contentChunk "an",
           CallbackEvent.reasoningChunk "ink", CallbackEvent.contentChunk "swer"])) ∧
    (lookupMessage
        (List.foldl (applyCallback "c1" "a1" 7)
          ⟨[⟨"c1", "t", [⟨"a1", Role.assistant, "", 5, some true, none⟩], 0, 0⟩],
            some "c1", true, true, ⟨StoredConvs.absent, none⟩, 0⟩
          [CallbackEvent.reasoningChunk "th", CallbackEvent.contentChunk "an",
           CallbackEvent.reasoningChunk "ink", CallbackEvent.contentChunk "swer"])
        "c1" "a1").map (fun x => x.reasoningContent.getD "")
      = some (concatAll (reasoningTexts
          [CallbackEvent.reasoningChunk "th", CallbackEvent.contentChunk "an",
           CallbackEvent.reasoningChunk "ink", CallbackEvent.contentChunk "swer"])) :=
  claim6_chunk_concatenation
    [CallbackEvent.reasoningChunk "th", CallbackEvent.contentChunk "an",
     CallbackEvent.reasoningChunk "ink", CallbackEvent.contentChunk "swer"]
    ⟨[⟨"c1", "t", [⟨"a1", Role.assistant, "", 5, some true, none⟩], 0, 0⟩],
      some "c1", true, true, ⟨StoredConvs.absent, none⟩, 0⟩
    "c1" "a1" 7 ⟨"a1", Role.assistant, "", 5, some true, none⟩
    (by decide) (by decide) (by decide) (by decide)

/-- Claim C10 (implicit frame effect): for every id string, whether or
not a conversation with that id exists, `switchConversation(id)` sets
`activeConversationId` to exactly that id and changes nothing else — the
conversation list (hence every message), the persistence store and the
session flags are unmodified and the persistence collaborator is not
invoked; and when no conversation has that id, the derived
`activeConversation` becomes null. -/
theorem claim10_switchConversation_frame (s : ChatState) (id : String) :
    (switchConversation s id).activeConversationId = some id ∧
    (switchConversation s id).conversations = s.conversations ∧
    (switchConversation s id).storage = s.storage ∧
    (switchConversation s id).saveCount = s.saveCount ∧
    (switchConversation s id).isLoading = s.isLoading ∧
    (switchConversation s id).isStreaming = s.isStreaming ∧
    ((∀ c ∈ s.conversations, c.id ≠ id) →
      activeConversation (switchConversation s id) = none) := by
  refine ⟨rfl, rfl, rfl, rfl, rfl, rfl, ?_⟩
  intro hno
  show s.conversations.find? (fun c => c.id == id) = none
  exact List.find?_eq_none.mpr fun x hx => by simp [hno x hx]

/-- Witness for C10: switching to an id that exists and to one that does
not, on a concrete state. -/
theorem claim10_switchConversation_frame_witness :
    (switchConversation
        ⟨[⟨"c1", "新对话", [], 0, 0⟩], some "c1", false, false,
          ⟨StoredConvs.absent, none⟩, 0⟩ "zzz").saveCount
      = (⟨[⟨"c1", "新对话", [], 0, 0⟩], some "c1", false, false,
          ⟨StoredConvs.absent, none⟩, 0⟩ : ChatState).saveCount ∧
    activeConversation
        (switchConversation
          ⟨[⟨"c1", "新对话", [], 0, 0⟩], some "c1", false, false,
            ⟨StoredConvs.absent, none⟩, 0⟩ "zzz")
      = none :=
  ⟨(claim10_switchConversation_frame
      ⟨[⟨"c1", "新对话", [], 0, 0⟩], some "c1", false, false,
        ⟨StoredConvs.absent, none⟩, 0⟩ "zzz").2.2.2.1,
   (claim10_switchConversation_frame
      ⟨[⟨"c1", "新对话", [], 0, 0⟩], some "c1", false, false,
        ⟨StoredConvs.absent, none⟩, 0⟩ "zzz").2.2.2.2.2.2 (by decide)⟩

/-- Claim C8: when `addMessage` appends the first message of a
conversation and that message's role is `user`, the conversation title
becomes the first 20 characters of the message content, with the
trailing `...` marker appended exactly when the content exceeds 20
characters. -/
theorem claim8_title_derivation (s : ChatState) (cid : String) (p : NewMessage)
    (mId : String) (now : Nat) (conv : Conversation)
    (hc : s.conversations.find? (fun c => c.id == cid) = some conv)
    (hempty : conv.messages = [])
    (hrole : p.role = Role.user) :
    ((addMessage s cid p mId now).1.conversations.find? (fun c => c.id == cid)).map
        Conversation.title
      = some (p.content.take 20 ++ (if p.content.length > 20 then "..." else "")) := by
  simp only [addMessage, hc]
  unfold saveConversations
  dsimp only
  rw [find?_modifyFirst_of_eq _ _ _ ?hf, hc]
  case hf => intro x; rfl
  simp only [Option.map_some']
  simp [hempty, hrole]

set_option maxRecDepth 16384 in
/-- Witness for C8: a first user message of exactly `"Hi"` yields the
title `"Hi"` with no ellipsis marker; a 59-character first user message
yields its first 20 characters followed by `...`. -/
theorem claim8_title_derivation_witness :
    ((addMessage
        ⟨[⟨"c1", "新对话", [], 0, 0⟩], some "c1", false, false,
          ⟨StoredConvs.absent, none⟩, 0⟩
        "c1" ⟨Role.user, "Hi", none, none⟩ "u1" 3).1.conversations.find?
        (fun c => c.id == "c1")).map Conversation.title = some "Hi" ∧
    ((addMessage
        ⟨[⟨"c1", "新对话", [], 0, 0⟩], some "c1", false, false,
          ⟨StoredConvs.absent, none⟩, 0⟩
        "c1" ⟨Role.user, "Hello world, this is a long message exceeding twenty chars",
          none, none⟩ "u1" 3).1.conversations.find?
        (fun c => c.id == "c1")).map Conversation.title
      = some "Hello world, this is..." := by
  constructor
  · have h := claim8_title_derivation
      ⟨[⟨"c1", "新对话", [], 0, 0⟩], some "c1", false, false,
        ⟨StoredConvs.absent, none⟩, 0⟩
      "c1" ⟨Role.user, "Hi", none, none⟩ "u1" 3 ⟨"c1", "新对话", [], 0, 0⟩
      (by decide) (by decide) rfl
    rw [h]
    decide
  · have h := claim8_title_derivation
      ⟨[⟨"c1", "新对话", [], 0, 0⟩], some "c1", false, false,
        ⟨StoredConvs.absent, none⟩, 0⟩
      "c1" ⟨Role.user, "Hello world, this is a long message exceeding twenty chars",
        none, none⟩ "u1" 3 ⟨"c1", "新对话", [], 0, 0⟩
      (by decide) (by decide) rfl
    rw [h]
    decide

/-- Claim C7: `deleteConversation(id)` removes the conversation with that
id (stated through the decomposition of the list at its first — under
distinct ids, only — occurrence); if it was the active one and other
conversations remain, the first remaining conversation becomes active
(its id being nonempty, as every generated id is); if the set becomes
empty, exactly one fresh conversation is created and becomes active; and
deleting a non-active conversation never changes
`activeConversationId`. -/
theorem claim7_deleteConversation (s : ChatState) (id freshId : String) (now : Nat) :
    (s.activeConversationId ≠ some id →
      (deleteConversation s id freshId now).activeConversationId
        = s.activeConversationId) ∧
    (∀ l1 c l2, s.conversations = l1 ++ c :: l2 → c.id = id →
      (∀ x ∈ l1, x.id ≠ id) →
      ((s.activeConversationId ≠ some id →
          (deleteConversation s id freshId now).conversations = l1 ++ l2) ∧
       (s.activeConversationId = some id →
          (∀ c0 cs, l1 ++ l2 = c0 :: cs → c0.id ≠ "" →
            (deleteConversation s id freshId now).conversations = c0 :: cs ∧
            (deleteConversation s id freshId now).activeConversationId = some c0.id) ∧
          (l1 ++ l2 = [] →
            (deleteConversation s id freshId now).conversations
              = [⟨freshId, "新对话", [], now, now⟩] ∧
            (deleteConversation s id freshId now).activeConversationId
              = some freshId)))) := by
  constructor
  · intro hne
    unfold deleteConversation
    cases hidx : findIndex (fun c => c.id == id) s.conversations with
    | none => rfl
    | some idx =>
      dsimp only
      have hbeq : (s.activeConversationId == some id) = false := by
        simp only [beq_eq_false_iff_ne, ne_eq]
        exact hne
      rw [hbeq]
      simp [saveConversations]
  · intro l1 c l2 hsplit hcid hl1
    have hfind : findIndex (fun x => x.id == id) s.conversations = some l1.length := by
      rw [hsplit]
      exact findIndex_append_first _ l1 c l2
        (fun x hx => by simp [hl1 x hx]) (by simp [hcid])
    have herase : s.conversations.eraseIdx l1.length = l1 ++ l2 := by
      rw [hsplit]
      exact eraseIdx_append_length l1 c l2
    constructor
    · intro hne
      have hbeq : (s.activeConversationId == some id) = false := by
        simp only [beq_eq_false_iff_ne, ne_eq]
        exact hne
      unfold deleteConversation
      rw [hfind]
      dsimp only
      rw [hbeq, herase]
      simp [saveConversations]
    · intro hact
      have hbeq : (s.activeConversationId == some id) = true := by
        simp [hact]
      constructor
      · intro c0 cs hrest hc0
        have hc0beq : (c0.id == "") = false := by
          simp only [beq_eq_false_iff_ne, ne_eq]
          exact hc0
        unfold deleteConversation
        rw [hfind]
        dsimp only
        rw [herase, hrest, hbeq]
        simp [saveConversations, hc0beq]
      · intro hrest
        unfold deleteConversation
        rw [hfind]
        dsimp only
        rw [herase, hrest, hbeq]
        simp [saveConversations, createConversation]

/-- Witness for C7: on concrete states, deleting a non-active
conversation keeps the active id and just removes it; deleting the only
(active) conversation leaves exactly one fresh active conversation. -/
theorem claim7_deleteConversation_witness :
    (deleteConversation
        ⟨[⟨"a", "t1", [], 0, 0⟩, ⟨"b", "t2", [], 0, 0⟩], some "a", false, false,
          ⟨StoredConvs.absent, none⟩, 0⟩ "b" "f" 9).activeConversationId = some "a" ∧
    (deleteConversation
        ⟨[⟨"a", "t1", [], 0, 0⟩, ⟨"b", "t2", [], 0, 0⟩], some "a", false, false,
          ⟨StoredConvs.absent, none⟩, 0⟩ "b" "f" 9).conversations
      = [⟨"a", "t1", [], 0, 0⟩] ∧
    (deleteConversation
        ⟨[⟨"a", "t1", [], 0, 0⟩], some "a", false, false,
          ⟨StoredConvs.absent, none⟩, 0⟩ "a" "f" 9).conversations
      = [⟨"f", "新对话", [], 9, 9⟩] ∧
    (deleteConversation
        ⟨[⟨"a", "t1", [], 0, 0⟩], some "a", false, false,
          ⟨StoredConvs.absent, none⟩, 0⟩ "a" "f" 9).activeConversationId = some "f" := by
  refine ⟨?_, ?_, ?_, ?_⟩
  · exact (claim7_deleteConversation
      ⟨[⟨"a", "t1", [], 0, 0⟩, ⟨"b", "t2", [], 0, 0⟩], some "a", false, false,
        ⟨StoredConvs.absent, none⟩, 0⟩ "b" "f" 9).1 (by decide)
  · exact (((claim7_deleteConversation
      ⟨[⟨"a", "t1", [], 0, 0⟩, ⟨"b", "t2", [], 0, 0⟩], some "a", false, false,
        ⟨StoredConvs.absent, none⟩, 0⟩ "b" "f" 9).2
      [⟨"a", "t1", [], 0, 0⟩] ⟨"b", "t2", [], 0, 0⟩ [] rfl rfl (by decide)).1 (by decide))
  · exact ((((claim7_deleteConversation
      ⟨[⟨"a", "t1", [], 0, 0⟩], some "a", false, false,
        ⟨StoredConvs.absent, none⟩, 0⟩ "a" "f" 9).2
      [] ⟨"a", "t1", [], 0, 0⟩ [] rfl rfl (by decide)).2 rfl).2 rfl).1
  · exact ((((claim7_deleteConversation
      ⟨[⟨"a", "t1", [], 0, 0⟩], some "a", false, false,
        ⟨StoredConvs.absent, none⟩, 0⟩ "a" "f" 9).2
      [] ⟨"a", "t1", [], 0, 0⟩ [] rfl rfl (by decide)).2 rfl).2 rfl).2

/-- Counterexample refuting C2 as stated: when the stream session throws
after the placeholder assistant message has been appended (e.g. the
dynamic import fails), the orchestration catch does reset the flags, but
the placeholder is left with `isStreaming = true` and empty content — a
partial message IS left in streaming state and no in-conversation
diagnostic message is produced on this path. -/
theorem claim2_counterexample :
    (sendMessage
        ⟨[⟨"c1", "新对话", [], 0, 0⟩], some "c1", false, false,
          ⟨StoredConvs.absent, none⟩, 0⟩
        "hello" "f1" "u1" "a1" 5 SessionBehavior.throwEx).isLoading = false ∧
    (sendMessage
        ⟨[⟨"c1", "新对话", [], 0, 0⟩], some "c1", false, false,
          ⟨StoredConvs.absent, none⟩, 0⟩
        "hello" "f1" "u1" "a1" 5 SessionBehavior.throwEx).isStreaming = false ∧
    lookupMessage
        (sendMessage
          ⟨[⟨"c1", "新对话", [], 0, 0⟩], some "c1", false, false,
            ⟨StoredConvs.absent, none⟩, 0⟩
          "hello" "f1" "u1" "a1" 5 SessionBehavior.throwEx) "c1" "a1"
      = some ⟨"a1", Role.assistant, "", 5, some true, none⟩ := by
  refine ⟨rfl, rfl, ?_⟩
  decide

/-- Claim C2 as amended: an exception thrown during `sendMessage`
outside the `StreamSession`'s own error handling (after the placeholder
assistant message has been appended) is caught at the orchestration
level and `isLoading` / `isStreaming` are reset to false; however the
placeholder assistant message keeps `isStreaming = true` and its empty
content — on this path the failure is NOT surfaced as an
in-conversation diagnostic message (that happens only for failures
routed through the session's `onError` callback). -/
theorem claim2_amended_exception_resets_flags (s : ChatState) (content : String)
    (freshConvId userMsgId aiMsgId : String) (now : Nat) (conv : Conversation)
    (hne : (jsTrim content).isEmpty = false)
    (hact : activeConversation s = some conv)
    (hfresh : idFresh s aiMsgId = true)
    (hids : userMsgId ≠ aiMsgId) :
    (sendMessage s content freshConvId userMsgId aiMsgId now
        SessionBehavior.throwEx).isLoading = false ∧
    (sendMessage s content freshConvId userMsgId aiMsgId now
        SessionBehavior.throwEx).isStreaming = false ∧
    lookupMessage
        (sendMessage s content freshConvId userMsgId aiMsgId now SessionBehavior.throwEx)
        conv.id aiMsgId
      = some ⟨aiMsgId, Role.assistant, "", now, some true, none⟩ := by
  obtain ⟨aid, haid, hfind0⟩ : ∃ aid, s.activeConversationId = some aid ∧
      s.conversations.find? (fun c => c.id == aid) = some conv := by
    unfold activeConversation at hact
    cases ha : s.activeConversationId with
    | none => rw [ha] at hact; simp at hact
    | some aid => rw [ha] at hact; exact ⟨aid, rfl, hact⟩
  have hcid : conv.id = aid := by
    have h1 := List.find?_some hfind0
    simpa using h1
  have hfind : s.conversations.find? (fun c => c.id == conv.id) = some conv := by
    rw [hcid]; exact hfind0
  have hconvmem : conv ∈ s.conversations := List.mem_of_find?_eq_some hfind0
  have hconvfresh : ∀ m ∈ conv.messages, m.id ≠ aiMsgId := by
    intro m hm
    have h1 := (List.all_eq_true.mp ((List.all_eq_true.mp hfresh) conv hconvmem)) m hm
    simpa using h1
  simp only [sendMessage, hne, hact]
  simp only [Bool.false_eq_true, if_false]
  simp only [sendMessageCore, addMessage, saveConversations, hfind]
  dsimp only
  rw [find?_modifyFirst_of_eq _ _ _ ?hf2, hfind]
  case hf2 => intro x; rfl
  simp only [Option.map_some']
  refine ⟨trivial, trivial, ?_⟩
  unfold lookupMessage lookupIn
  dsimp only
  rw [find?_modifyFirst_of_eq _ _ _ ?hfa, find?_modifyFirst_of_eq _ _ _ ?hfb, hfind]
  case hfa => intro x; rfl
  case hfb => intro x; rfl
  simp only [Option.map_some']
  rw [find?_append_left_none _ _ _ ?hpre]
  case hpre =>
    intro x hx
    rcases List.mem_append.mp hx with hA | hu
    · simp [hconvfresh x hA]
    · have hxu : x.id = userMsgId := by
        rcases List.mem_singleton.mp hu with rfl
        rfl
      simp [hxu, hids]
  simp

/-! ### Invariant preservation lemmas (claim C5) -/

theorem inv_elim (s : ChatState) (h : invState s = true) :
    s.conversations.all convOK = true ∧ storedOK s.storage.conversations = true := by
  simpa [invState, Bool.and_eq_true] using h

theorem inv_save (s : ChatState) (h : s.conversations.all convOK = true) :
    invState (saveConversations s) = true := by
  simp [invState, saveConversations, storedOK, h]

theorem inv_create (s : ChatState) (freshId : String) (now : Nat)
    (h : invState s = true) : invState (createConversation s freshId now).1 = true := by
  unfold createConversation
  apply inv_save
  simp only [List.all_cons, Bool.and_eq_true]
  exact ⟨rfl, (inv_elim s h).1⟩

theorem all_convOK_modifyFirst (convs : List Conversation) (cid mid : String)
    (F : Conversation → Conversation) (g : Message → Message)
    (hFmsgs : ∀ c, (F c).messages = modifyFirst (fun x => x.id == mid) g c.messages)
    (hg : ∀ c, convs.find? (fun x => x.id == cid) = some c →
      ∀ m, c.messages.find? (fun x => x.id == mid) = some m →
      userMsgOK m = true → userMsgOK (g m) = true)
    (hconvs : convs.all convOK = true) :
    (modifyFirst (fun c => c.id == cid) F convs).all convOK = true := by
  apply all_modifyFirst _ _ _ _ hconvs
  intro c hc
  show (F c).messages.all userMsgOK = true
  rw [hFmsgs c]
  have hcOK : convOK c = true := (List.all_eq_true.mp hconvs) c (List.mem_of_find?_eq_some hc)
  apply all_modifyFirst _ _ _ _ hcOK
  intro m hm
  exact hg c hc m hm ((List.all_eq_true.mp hcOK) m (List.mem_of_find?_eq_some hm))

theorem inv_addMessage (s : ChatState) (cid : String) (p : NewMessage)
    (mId : String) (now : Nat) (hinv : invState s = true) (hp : newMsgOK p = true) :
    invState (addMessage s cid p mId now).1 = true := by
  unfold addMessage
  cases hc : s.conversations.find? (fun c => c.id == cid) with
  | none => exact hinv
  | some conv =>
    dsimp only
    apply inv_save
    apply all_modifyFirst _ _ _ _ (inv_elim s hinv).1
    intro c hcfind
    show ((c.messages ++ [_]).all userMsgOK) = true
    rw [List.all_append]
    have hcOK : convOK c = true :=
      (List.all_eq_true.mp (inv_elim s hinv).1) c (List.mem_of_find?_eq_some hcfind)
    have hnew : userMsgOK ⟨mId, p.role, p.content, now, p.isStreaming, p.reasoningContent⟩
        = newMsgOK p := by
      unfold userMsgOK newMsgOK
      cases p.role <;> rfl
    simp only [Bool.and_eq_true]
    exact ⟨hcOK, by simp [hnew, hp]⟩

theorem inv_updateMessage (s : ChatState) (cid mid text : String) (now : Nat)
    (hinv : invState s = true) :
    invState (updateMessage s cid mid text now) = true := by
  unfold updateMessage
  cases hc : s.conversations.find? (fun c => c.id == cid) with
  | none => exact hinv
  | some conv =>
    dsimp only
    cases hm : conv.messages.find? (fun m => m.id == mid) with
    | none => exact hinv
    | some msg =>
      dsimp only
      apply inv_save
      apply all_convOK_modifyFirst _ cid mid _ (fun x => { x with content := text })
        ?_ ?_ (inv_elim s hinv).1
      · intro c; rfl
      · intro c _ m _ hOK
        exact hOK

theorem inv_updateReasoning (s : ChatState) (cid mid text : String) (now : Nat)
    (hinv : invState s = true) (hrole : lookupRoleAssistant s cid mid = true) :
    invState (updateReasoningContent s cid mid text now) = true := by
  unfold updateReasoningContent
  cases hc : s.conversations.find? (fun c => c.id == cid) with
  | none => exact hinv
  | some conv =>
    dsimp only
    cases hm : conv.messages.find? (fun m => m.id == mid) with
    | none => exact hinv
    | some msg =>
      dsimp only
      have hlk : lookupMessage s cid mid = some msg := by
        simp only [lookupMessage, lookupIn, hc]
        exact hm
      have hassist : msg.role = Role.assistant := by
        simp only [lookupRoleAssistant, hlk] at hrole
        simpa using hrole
      apply inv_save
      apply all_convOK_modifyFirst _ cid mid _
        (fun x => { x with reasoningContent := some text }) ?_ ?_ (inv_elim s hinv).1
      · intro c; rfl
      · intro c hcfind m hmfind hOK
        rw [hc] at hcfind
        obtain rfl : conv = c := by injection hcfind
        rw [hm] at hmfind
        obtain rfl : msg = m := by injection hmfind
        simp [userMsgOK, hassist]

theorem userMsgOK_stop (g : Message → Message)
    (hgrole : ∀ m, (g m).role = m.role)
    (hgreason : ∀ m, (g m).reasoningContent = m.reasoningContent)
    (hgstream : ∀ m, (g m).isStreaming = some false)
    (m : Message) (hOK : userMsgOK m = true) : userMsgOK (g m) = true := by
  unfold userMsgOK at hOK ⊢
  rw [hgrole m, hgreason m, hgstream m]
  cases hr : m.role with
  | user =>
    rw [hr] at hOK
    simp only [Bool.and_eq_true] at hOK ⊢
    exact ⟨hOK.1, by decide⟩
  | assistant => rfl

theorem inv_onChunkHandler (s : ChatState) (cid mid : String) (now : Nat) (chunk : String)
    (hinv : invState s = true) :
    invState (onChunkHandler cid mid now s chunk) = true := by
  unfold onChunkHandler
  cases hlk : lookupMessage s cid mid with
  | none => exact hinv
  | some m => exact inv_updateMessage s cid mid (m.content ++ chunk) now hinv

theorem inv_onReasoningHandler (s : ChatState) (cid mid : String) (now : Nat)
    (chunk : String) (hinv : invState s = true)
    (hrole : lookupRoleAssistant s cid mid = true) :
    invState (onReasoningHandler cid mid now s chunk) = true := by
  unfold onReasoningHandler
  cases hlk : lookupMessage s cid mid with
  | none => exact hinv
  | some m =>
    exact inv_updateReasoning s cid mid (m.reasoningContent.getD "" ++ chunk) now hinv hrole

theorem inv_onCompleteHandler (s : ChatState) (cid mid : String)
    (hinv : invState s = true) :
    invState (onCompleteHandler cid mid s) = true := by
  unfold onCompleteHandler
  cases hlk : lookupMessage s cid mid with
  | none => exact hinv
  | some m =>
    dsimp only
    show ((modifyFirst _ _ s.conversations).all convOK
        && storedOK s.storage.conversations) = true
    simp only [Bool.and_eq_true]
    refine ⟨?_, (inv_elim s hinv).2⟩
    apply all_convOK_modifyFirst _ cid mid _ (fun x => { x with isStreaming := some false })
      ?_ ?_ (inv_elim s hinv).1
    · intro c; rfl
    · intro c _ m2 _ hOK
      exact userMsgOK_stop (fun x => { x with isStreaming := some false })
        (fun x => rfl) (fun x => rfl) (fun x => rfl) m2 hOK

theorem inv_onErrorHandler (s : ChatState) (cid mid : String) (e : JsError)
    (hinv : invState s = true) :
    invState (onErrorHandler cid mid e s) = true := by
  cases hlk : lookupMessage s cid mid with
  | none =>
    simp only [onErrorHandler, hlk]
    exact hinv
  | some m =>
    simp only [onErrorHandler, hlk]
    show ((modifyFirst _ _ s.conversations).all convOK
        && storedOK s.storage.conversations) = true
    simp only [Bool.and_eq_true]
    refine ⟨?_, (inv_elim s hinv).2⟩
    apply all_convOK_modifyFirst _ cid mid _
      (fun x => { x with content := errTemplate e, isStreaming := some false })
      ?_ ?_ (inv_elim s hinv).1
    · intro c; rfl
    · intro c _ m2 _ hOK
      exact userMsgOK_stop (fun x => { x with content := errTemplate e, isStreaming := some false })
        (fun x => rfl) (fun x => rfl) (fun x => rfl) m2 hOK

theorem inv_applyCallback (s : ChatState) (cid mid : String) (now : Nat)
    (e : CallbackEvent) (hinv : invState s = true)
    (hrole : lookupRoleAssistant s cid mid = true) :
    invState (applyCallback cid mid now s e) = true := by
  cases e with
  | reasoningChunk chunk => exact inv_onReasoningHandler s cid mid now chunk hinv hrole
  | contentChunk chunk => exact inv_onChunkHandler s cid mid now chunk hinv
  | complete => exact inv_onCompleteHandler s cid mid hinv
  | error e2 => exact inv_onErrorHandler s cid mid e2 hinv

theorem lookupRole_applyCallback (s : ChatState) (cid mid : String) (now : Nat)
    (e : CallbackEvent) (hrole : lookupRoleAssistant s cid mid = true) :
    lookupRoleAssistant (applyCallback cid mid now s e) cid mid = true := by
  cases hlk : lookupMessage s cid mid with
  | none =>
    cases e with
    | reasoningChunk chunk =>
      show lookupRoleAssistant (onReasoningHandler cid mid now s chunk) cid mid = true
      simp only [onReasoningHandler, hlk]
      exact hrole
    | contentChunk chunk =>
      show lookupRoleAssistant (onChunkHandler cid mid now s chunk) cid mid = true
      simp only [onChunkHandler, hlk]
      exact hrole
    | complete =>
      show lookupRoleAssistant (onCompleteHandler cid mid s) cid mid = true
      simp only [onCompleteHandler, hlk]
      exact hrole
    | error e2 =>
      show lookupRoleAssistant (onErrorHandler cid mid e2 s) cid mid = true
      simp only [onErrorHandler, hlk]
      exact hrole
  | some m =>
    have hassist : (m.role == Role.assistant) = true := by
      simpa only [lookupRoleAssistant, hlk] using hrole
    cases e with
    | reasoningChunk chunk =>
      have h2 := lookupMessage_onReasoningHandler s cid mid now chunk m hlk
      show lookupRoleAssistant (onReasoningHandler cid mid now s chunk) cid mid = true
      simp only [lookupRoleAssistant, h2]
      exact hassist
    | contentChunk chunk =>
      have h2 := lookupMessage_onChunkHandler s cid mid now chunk m hlk
      show lookupRoleAssistant (onChunkHandler cid mid now s chunk) cid mid = true
      simp only [lookupRoleAssistant, h2]
      exact hassist
    | complete =>
      have h2 := lookupMessage_onCompleteHandler s cid mid m hlk
      show lookupRoleAssistant (onCompleteHandler cid mid s) cid mid = true
      simp only [lookupRoleAssistant, h2]
      exact hassist
    | error e2 =>
      have h2 := lookupMessage_onErrorHandler s cid mid e2 m hlk
      show lookupRoleAssistant (onErrorHandler cid mid e2 s) cid mid = true
      simp only [lookupRoleAssistant, h2]
      exact hassist

theorem inv_foldl_callbacks (evs : List CallbackEvent) (s : ChatState)
    (cid mid : String) (now : Nat) (hinv : invState s = true)
    (hrole : lookupRoleAssistant s cid mid = true) :
    invState (evs.foldl (applyCallback cid mid now) s) = true := by
  induction evs generalizing s with
  | nil => exact hinv
  | cons e rest ih =>
    simp only [List.foldl_cons]
    exact ih (applyCallback cid mid now s e)
      (inv_applyCallback s cid mid now e hinv hrole)
      (lookupRole_applyCallback s cid mid now e hrole)

theorem addMessage_lookup_fresh (s : ChatState) (cid : String) (conv : Conversation)
    (a : String) (now : Nat)
    (hfind : s.conversations.find? (fun c => c.id == cid) = some conv)
    (hfreshconv : ∀ m ∈ conv.messages, m.id ≠ a) :
    lookupMessage (addMessage s cid ⟨Role.assistant, "", some true, none⟩ a now).1 cid a
      = some ⟨a, Role.assistant, "", now, some true, none⟩ := by
  simp only [addMessage, saveConversations, hfind]
  dsimp only
  unfold lookupMessage lookupIn
  dsimp only
  rw [find?_modifyFirst_of_eq _ _ _ ?hf, hfind]
  case hf => intro x; rfl
  simp only [Option.map_some']
  rw [find?_append_left_none _ _ _ ?hpre]
  case hpre => intro x hx; simp [hfreshconv x hx]
  simp

theorem inv_delete (s : ChatState) (id freshId : String) (now : Nat)
    (hinv : invState s = true) :
    invState (deleteConversation s id freshId now) = true := by
  unfold deleteConversation
  cases hidx : findIndex (fun c => c.id == id) s.conversations with
  | none => exact hinv
  | some idx =>
    dsimp only
    apply inv_save
    have herased := all_eraseIdx convOK s.conversations idx (inv_elim s hinv).1
    by_cases hact : (s.activeConversationId == some id) = true
    · rw [if_pos hact]
      by_cases hlen : 0 < (s.conversations.eraseIdx idx).length
      · rw [if_pos hlen]
        exact herased
      · rw [if_neg hlen]
        show ((⟨freshId, "新对话", [], now, now⟩ :: s.conversations.eraseIdx idx).all convOK)
          = true
        simp only [List.all_cons, Bool.and_eq_true]
        exact ⟨rfl, herased⟩
    · rw [if_neg hact]
      exact herased

theorem inv_load (s : ChatState) (freshId : String) (now : Nat)
    (hinv : invState s = true) : invState (loadConversations s freshId now) = true := by
  obtain ⟨hconvs, hstored⟩ := inv_elim s hinv
  unfold loadConversations
  cases hst : s.storage.conversations with
  | absent =>
    dsimp only
    split
    · exact hinv
    · split
      · exact hinv
      · exact inv_create _ freshId now hinv
  | malformed =>
    dsimp only
    split
    · exact hinv
    · split
      · exact hinv
      · exact inv_create _ freshId now hinv
  | ok cs =>
    dsimp only
    have hcs : cs.all convOK = true := by
      rw [hst] at hstored
      simpa [storedOK] using hstored
    have hinv1 : invState { s with conversations := cs } = true := by
      simp [invState, hcs, hstored]
    split
    · exact hinv1
    · split
      · exact hinv1
      · exact inv_create _ freshId now hinv1

theorem activeConversation_find (s : ChatState) (conv : Conversation)
    (hact : activeConversation s = some conv) :
    s.conversations.find? (fun c => c.id == conv.id) = some conv := by
  unfold activeConversation at hact
  cases ha : s.activeConversationId with
  | none => rw [ha] at hact; simp at hact
  | some aid =>
    rw [ha] at hact
    have hcid : conv.id = aid := by simpa using List.find?_some hact
    rw [hcid]
    exact hact

theorem idFresh_elim (s : ChatState) (i : String) (h : idFresh s i = true) :
    ∀ c ∈ s.conversations, ∀ m ∈ c.messages, m.id ≠ i := by
  intro c hc m hm
  have h1 := (List.all_eq_true.mp ((List.all_eq_true.mp h) c hc)) m hm
  simpa using h1

theorem placeholder_lookup (s1 : ChatState) (conv : Conversation) (content : String)
    (u a : String) (now : Nat)
    (hfind : s1.conversations.find? (fun c => c.id == conv.id) = some conv)
    (hconvfresh : ∀ m ∈ conv.messages, m.id ≠ a)
    (hua : u ≠ a) :
    lookupMessage
      (addMessage
        { (addMessage s1 conv.id ⟨Role.user, jsTrim content, none, none⟩ u now).1 with
          isLoading := true, isStreaming := true } conv.id
        ⟨Role.assistant, "", some true, none⟩ a now).1 conv.id a
      = some ⟨a, Role.assistant, "", now, some true, none⟩ := by
  simp only [addMessage, saveConversations, hfind]
  dsimp only
  rw [find?_modifyFirst_of_eq _ _ _ ?hq1, hfind]
  case hq1 => intro x; rfl
  simp only [Option.map_some']
  unfold lookupMessage lookupIn
  dsimp only
  rw [find?_modifyFirst_of_eq _ _ _ ?hq2, find?_modifyFirst_of_eq _ _ _ ?hq3, hfind]
  case hq2 => intro x; rfl
  case hq3 => intro x; rfl
  simp only [Option.map_some']
  rw [find?_append_left_none _ _ _ ?hpre]
  case hpre =>
    intro x hx
    rcases List.mem_append.mp hx with hA | hu
    · simp [hconvfresh x hA]
    · have hxu : x.id = u := by
        rcases List.mem_singleton.mp hu with rfl
        rfl
      simp [hxu, hua]
  simp

theorem placeholder_returned (s1 : ChatState) (conv : Conversation) (content : String)
    (u a : String) (now : Nat)
    (hfind : s1.conversations.find? (fun c => c.id == conv.id) = some conv) :
    (addMessage
        { (addMessage s1 conv.id ⟨Role.user, jsTrim content, none, none⟩ u now).1 with
          isLoading := true, isStreaming := true } conv.id
        ⟨Role.assistant, "", some true, none⟩ a now).2
      = some ⟨a, Role.assistant, "", now, some true, none⟩ := by
  simp only [addMessage, saveConversations, hfind]
  dsimp only
  rw [find?_modifyFirst_of_eq _ _ _ ?hq1, hfind]
  case hq1 => intro x; rfl
  simp only [Option.map_some']

theorem inv_sendMessageCore (s1 : ChatState) (conv : Conversation) (content : String)
    (u a : String) (now : Nat) (session : SessionBehavior)
    (hinv1 : invState s1 = true)
    (hfind : s1.conversations.find? (fun c => c.id == conv.id) = some conv)
    (hconvfresh : ∀ m ∈ conv.messages, m.id ≠ a)
    (hua : u ≠ a) :
    invState (sendMessageCore s1 conv content u a now session) = true := by
  have hinv2 : invState
      (addMessage s1 conv.id ⟨Role.user, jsTrim content, none, none⟩ u now).1 = true :=
    inv_addMessage s1 conv.id _ u now hinv1 rfl
  have hlk4 := placeholder_lookup s1 conv content u a now hfind hconvfresh hua
  have haddr := placeholder_returned s1 conv content u a now hfind
  have hinv4 : invState
      (addMessage
        { (addMessage s1 conv.id ⟨Role.user, jsTrim content, none, none⟩ u now).1 with
          isLoading := true, isStreaming := true } conv.id
        ⟨Role.assistant, "", some true, none⟩ a now).1 = true :=
    inv_addMessage _ conv.id _ a now hinv2 rfl
  unfold sendMessageCore
  dsimp only
  rw [haddr]
  dsimp only
  cases session with
  | throwEx => exact hinv4
  | run evs =>
    apply inv_foldl_callbacks evs _ conv.id a now hinv4
    simp only [lookupRoleAssistant, hlk4]
    rfl


theorem inv_sendMessage (s : ChatState) (content : String)
    (f u a : String) (now : Nat) (session : SessionBehavior)
    (hinv : invState s = true) (hfresh : idFresh s a = true) (hua : u ≠ a) :
    invState (sendMessage s content f u a now session) = true := by
  unfold sendMessage
  by_cases hempty : (jsTrim content).isEmpty = true
  · rw [if_pos hempty]
    exact hinv
  · rw [if_neg hempty]
    cases hact : activeConversation s with
    | some conv =>
      have hfind := activeConversation_find s conv hact
      exact inv_sendMessageCore s conv content u a now session hinv hfind
        (fun m hm =>
          idFresh_elim s a hfresh conv (List.mem_of_find?_eq_some hfind) m hm) hua
    | none =>
      apply inv_sendMessageCore _ _ content u a now session
        (inv_create s f now hinv) ?_ ?_ hua
      · simp only [createConversation, saveConversations]
        rw [List.find?_cons_of_pos _ (by simp)]
      · intro m hm
        simp only [createConversation, saveConversations] at hm
        simp at hm

/-- Counterexample refuting C5 as stated: `updateReasoningContent`
performs no role check, so calling it with a user message's id (a call
the operation's signature permits) stores a `reasoningContent` on a user
message, breaking the invariant — the state before satisfies the
invariant and the state after does not. -/
theorem claim5_counterexample :
    invState
        ⟨[⟨"c1", "t", [⟨"u1", Role.user, "question", 0, none, none⟩], 0, 0⟩],
          some "c1", false, false, ⟨StoredConvs.absent, none⟩, 0⟩ = true ∧
    invState
        (updateReasoningContent
          ⟨[⟨"c1", "t", [⟨"u1", Role.user, "question", 0, none, none⟩], 0, 0⟩],
            some "c1", false, false, ⟨StoredConvs.absent, none⟩, 0⟩
          "c1" "u1" "think" 1)
      = false :=
  ⟨by decide, by decide⟩

/-- Claim C5 as amended: the data-model invariant — a message with role
`user` never has a `reasoningContent` value and never has
`isStreaming = true`, in the live state and in the persisted copy — is
preserved by every store operation, provided the operations are called
as the code calls them: `addMessage`'s argument does not itself carry
reasoning/streaming data on a user message, `updateReasoningContent` is
only addressed at assistant messages, and `sendMessage` is given fresh
message ids. Without those call-site conditions the invariant can be
broken (see the counterexample). -/
theorem claim5_amended_invariant_preservation :
    (∀ s freshId now, invState s = true →
        invState (createConversation s freshId now).1 = true) ∧
    (∀ s id freshId now, invState s = true →
        invState (deleteConversation s id freshId now) = true) ∧
    (∀ s id, invState s = true → invState (switchConversation s id) = true) ∧
    (∀ s cid p mId now, invState s = true → newMsgOK p = true →
        invState (addMessage s cid p mId now).1 = true) ∧
    (∀ s cid mid text now, invState s = true →
        invState (updateMessage s cid mid text now) = true) ∧
    (∀ s cid mid text now, invState s = true → lookupRoleAssistant s cid mid = true →
        invState (updateReasoningContent s cid mid text now) = true) ∧
    (∀ s content f u a now session, invState s = true → idFresh s a = true → u ≠ a →
        invState (sendMessage s content f u a now session) = true) ∧
    (∀ s freshId now, invState s = true →
        invState (loadConversations s freshId now) = true) :=
  ⟨inv_create, inv_delete,
   fun _ _ hinv => hinv,
   inv_addMessage, inv_updateMessage, inv_updateReasoning,
   inv_sendMessage, inv_load⟩

/-- Witness for the amended C5: each operation applied to a concrete
invariant-satisfying state (one conversation holding one assistant
message) yields an invariant-satisfying state. -/
theorem claim5_amended_invariant_preservation_witness :
    invState (createConversation
        ⟨[⟨"c1", "t", [⟨"m1", Role.assistant, "", 0, some true, none⟩], 0, 0⟩],
          some "c1", false, false, ⟨StoredConvs.absent, none⟩, 0⟩ "f" 1).1 = true ∧
    invState (deleteConversation
        ⟨[⟨"c1", "t", [⟨"m1", Role.assistant, "", 0, some true, none⟩], 0, 0⟩],
          some "c1", false, false, ⟨StoredConvs.absent, none⟩, 0⟩ "c1" "f" 1) = true ∧
    invState (switchConversation
        ⟨[⟨"c1", "t", [⟨"m1", Role.assistant, "", 0, some true, none⟩], 0, 0⟩],
          some "c1", false, false, ⟨StoredConvs.absent, none⟩, 0⟩ "x") = true ∧
    invState (addMessage
        ⟨[⟨"c1", "t", [⟨"m1", Role.assistant, "", 0, some true, none⟩], 0, 0⟩],
          some "c1", false, false, ⟨StoredConvs.absent, none⟩, 0⟩
        "c1" ⟨Role.user, "hi", none, none⟩ "u1" 1).1 = true ∧
    invState (updateMessage
        ⟨[⟨"c1", "t", [⟨"m1", Role.assistant, "", 0, some true, none⟩], 0, 0⟩],
          some "c1", false, false, ⟨StoredConvs.absent, none⟩, 0⟩
        "c1" "m1" "hello" 1) = true ∧
    invState (updateReasoningContent
        ⟨[⟨"c1", "t", [⟨"m1", Role.assistant, "", 0, some true, none⟩], 0, 0⟩],
          some "c1", false, false, ⟨StoredConvs.absent, none⟩, 0⟩
        "c1" "m1" "think" 1) = true ∧
    invState (sendMessage
        ⟨[⟨"c1", "t", [⟨"m1", Role.assistant, "", 0, some true, none⟩], 0, 0⟩],
          some "c1", false, false, ⟨StoredConvs.absent, none⟩, 0⟩
        "hi" "f" "u1" "a1" 1
        (SessionBehavior.run
          [CallbackEvent.reasoningChunk "r", CallbackEvent.contentChunk "c",
           CallbackEvent.complete])) = true ∧
    invState (loadConversations
        ⟨[⟨"c1", "t", [⟨"m1", Role.assistant, "", 0, some true, none⟩], 0, 0⟩],
          some "c1", false, false, ⟨StoredConvs.absent, none⟩, 0⟩ "f" 1) = true :=
  ⟨claim5_amended_invariant_preservation.1 _ "f" 1 (by decide),
   claim5_amended_invariant_preservation.2.1 _ "c1" "f" 1 (by decide),
   claim5_amended_invariant_preservation.2.2.1 _ "x" (by decide),
   claim5_amended_invariant_preservation.2.2.2.1 _ "c1" ⟨Role.user, "hi", none, none⟩
     "u1" 1 (by decide) (by decide),
   claim5_amended_invariant_preservation.2.2.2.2.1 _ "c1" "m1" "hello" 1 (by decide),
   claim5_amended_invariant_preservation.2.2.2.2.2.1 _ "c1" "m1" "think" 1
     (by decide) (by decide),
   claim5_amended_invariant_preservation.2.2.2.2.2.2.1 _ "hi" "f" "u1" "a1" 1
     (SessionBehavior.run
       [CallbackEvent.reasoningChunk "r", CallbackEvent.contentChunk "c",
        CallbackEvent.complete])
     (by decide) (by decide) (by decide),
   claim5_amended_invariant_preservation.2.2.2.2.2.2.2 _ "f" 1 (by decide)⟩

/-- Witness for the amended C2. -/
theorem claim2_amended_exception_resets_flags_witness :
    (sendMessage
        ⟨[⟨"c1", "新对话", [], 0, 0⟩], some "c1", false, false,
          ⟨StoredConvs.absent, none⟩, 0⟩
        "hey" "f1" "u1" "a1" 5 SessionBehavior.throwEx).isLoading = false ∧
    (sendMessage
        ⟨[⟨"c1", "新对话", [], 0, 0⟩], some "c1", false, false,
          ⟨StoredConvs.absent, none⟩, 0⟩
        "hey" "f1" "u1" "a1" 5 SessionBehavior.throwEx).isStreaming = false ∧
    lookupMessage
        (sendMessage
          ⟨[⟨"c1", "新对话", [], 0, 0⟩], some "c1", false, false,
            ⟨StoredConvs.absent, none⟩, 0⟩
          "hey" "f1" "u1" "a1" 5 SessionBehavior.throwEx)
        (⟨"c1", "新对话", [], 0, 0⟩ : Conversation).id "a1"
      = some ⟨"a1", Role.assistant, "", 5, some true, none⟩ :=
  claim2_amended_exception_resets_flags
    ⟨[⟨"c1", "新对话", [], 0, 0⟩], some "c1", false, false,
      ⟨StoredConvs.absent, none⟩, 0⟩
    "hey" "f1" "u1" "a1" 5 ⟨"c1", "新对话", [], 0, 0⟩
    (by decide) (by decide) (by decide) (by decide)

end EvilKitten
